import Mathlib

/-!
Verification of the relational-bone subsystem of the `server` repository
(`src/bones/relationalBone.py`).

The Python class `relationalBone` is shallowly embedded below: its pure
data manipulation becomes Lean functions, the datastore becomes an explicit
state (`DB`, `IndexState`) threaded through the functions, and Python
exceptions (`raise`, failed `assert`) become `Except.error` results.
External collaborators that are not part of the repository (the datastore
driver `viur.core.db`, and the `RefSkel` / using-skeleton codec from
`viur.core.skeleton`) are modelled from the specification; every such
definition carries a doc comment starting with `Modelled from the spec:`.
-/

set_option maxHeartbeats 1000000

/-- A datastore key: entity kind plus string identifier
(`db.Key(kind, name)` in the source). -/
structure DBKey where
  kind : String
  ident : String
deriving DecidableEq

/-- A property value as stored in entities, filters and client input.
Urlsafe-encoded full-key strings exchanged with the client are modelled
in their decoded form `Val.key`. -/
inductive Val where
  | none_ : Val
  | str (s : String) : Val
  | int (n : Int) : Val
  | key (k : DBKey) : Val
  | list (xs : List Val) : Val

mutual

def Val.decEq : (a b : Val) → Decidable (a = b)
  | .none_, .none_ => .isTrue rfl
  | .str s, .str t =>
    if h : s = t then .isTrue (by rw [h]) else .isFalse (by simp [h])
  | .int m, .int n =>
    if h : m = n then .isTrue (by rw [h]) else .isFalse (by simp [h])
  | .key j, .key k =>
    if h : j = k then .isTrue (by rw [h]) else .isFalse (by simp [h])
  | .list xs, .list ys =>
    match Val.decEqList xs ys with
    | .isTrue h => .isTrue (by rw [h])
    | .isFalse h => .isFalse (by simp [h])
  | .none_, .str _ => .isFalse nofun
  | .none_, .int _ => .isFalse nofun
  | .none_, .key _ => .isFalse nofun
  | .none_, .list _ => .isFalse nofun
  | .str _, .none_ => .isFalse nofun
  | .str _, .int _ => .isFalse nofun
  | .str _, .key _ => .isFalse nofun
  | .str _, .list _ => .isFalse nofun
  | .int _, .none_ => .isFalse nofun
  | .int _, .str _ => .isFalse nofun
  | .int _, .key _ => .isFalse nofun
  | .int _, .list _ => .isFalse nofun
  | .key _, .none_ => .isFalse nofun
  | .key _, .str _ => .isFalse nofun
  | .key _, .int _ => .isFalse nofun
  | .key _, .list _ => .isFalse nofun
  | .list _, .none_ => .isFalse nofun
  | .list _, .str _ => .isFalse nofun
  | .list _, .int _ => .isFalse nofun
  | .list _, .key _ => .isFalse nofun

def Val.decEqList : (a b : List Val) → Decidable (a = b)
  | [], [] => .isTrue rfl
  | [], _ :: _ => .isFalse nofun
  | _ :: _, [] => .isFalse nofun
  | x :: xs, y :: ys =>
    match Val.decEq x y, Val.decEqList xs ys with
    | .isTrue h1, .isTrue h2 => .isTrue (by rw [h1, h2])
    | .isFalse h1, _ => .isFalse (by simp [h1])
    | _, .isFalse h2 => .isFalse (by simp [h2])

end

instance : DecidableEq Val := Val.decEq

/-- A values-cache / entity property mapping: association list from
property names to values (Python dict with insertion order). -/
abbrev Cache := List (String × Val)

/-- Dictionary lookup on a `Cache` (first binding wins, as in a dict). -/
def cget : Cache → String → Option Val
  | [], _ => none
  | p :: t, k => if p.1 = k then some p.2 else cget t k

/-- The four referential-integrity policies (`RelationalConsistency`). -/
inductive RelationalConsistency where
  | Ignore
  | PreventDeletion
  | SetNull
  | CascadeDeletion
deriving DecidableEq

/-- `RelationalConsistency.value` (the enum payloads 1..4). -/
def RelationalConsistency.value : RelationalConsistency → Nat
  | .Ignore => 1
  | .PreventDeletion => 2
  | .SetNull => 3
  | .CascadeDeletion => 4

/-- Static configuration of one `relationalBone` (the constructor
arguments kept on `self`).  `usingKeys = some ks` models `using` being a
RelSkel class whose bone names are `ks`; `none` models `using=None`. -/
structure Bone where
  kind : String
  refKeys : List String
  parentKeys : List String
  multiple : Bool
  usingKeys : Option (List String)
  updateLevel : Nat
  consistency : RelationalConsistency
  required : Bool
deriving DecidableEq

/-- A relation value as held in the skeleton's values cache:
`{"dest": <ref-skel values>, "rel": <using-skel values or None>}`. -/
structure RelVal where
  dest : Cache
  rel : Option Cache
deriving DecidableEq

/-- The value of one bone inside a skeleton's `accessedValues` /
`valuesCache`: `None`, a single relation dict, or a list of them. -/
inductive BoneVal where
  | none_ : BoneVal
  | single (v : RelVal) : BoneVal
  | list (vs : List RelVal) : BoneVal
deriving DecidableEq

/-- Python `s.startswith(pre)`, on the character data (the built-in
`String.startsWith` does not reduce in the kernel). -/
def pyStartsWith (s pre : String) : Bool :=
  pre.data.isPrefixOf s.data

/-- Python `c in s` for a single character. -/
def pyContainsChar (s : String) (c : Char) : Bool :=
  s.data.contains c

def splitCharAux (c : Char) : List Char → List (List Char)
  | [] => [[]]
  | x :: xs =>
    let r := splitCharAux c xs
    if x = c then [] :: r
    else
      match r with
      | y :: ys => (x :: y) :: ys
      | [] => [[x]]

/-- Python `s.split(sep)` for a single-character separator. -/
def pySplitChar (s : String) (c : Char) : List String :=
  (splitCharAux c s.data).map String.mk

def replaceFuel (pat rep : List Char) : Nat → List Char → List Char
  | _, [] => []
  | 0, l => l
  | n + 1, x :: xs =>
    if pat ≠ [] && pat.isPrefixOf (x :: xs) then
      rep ++ replaceFuel pat rep n ((x :: xs).drop pat.length)
    else x :: replaceFuel pat rep n xs

/-- Python `s.replace(old, new)` — every occurrence. -/
def pyReplace (s pat rep : String) : String :=
  String.mk (replaceFuel pat.data rep.data s.data.length s.data)

/-- Python `s.lower()`. -/
def pyLower (s : String) : String :=
  String.mk (s.data.map Char.toLower)

/-- Python `s.isdigit()`. -/
def pyIsDigit (s : String) : Bool :=
  s.data ≠ [] && s.data.all Char.isDigit

def digitsToNat (l : List Char) : Option Nat :=
  if l ≠ [] && l.all Char.isDigit then
    some (l.foldl (fun acc c => acc * 10 + (c.toNat - 48)) 0)
  else none

/-- Python `int(s)`, `none` modelling the `ValueError`. -/
def pyToInt (s : String) : Option Int :=
  match s.data with
  | Char.ofNat 45 :: rest => (digitsToNat rest).map (fun n => -(n : Int))
  | Char.ofNat 43 :: rest => (digitsToNat rest).map (fun n => (n : Int))
  | l => (digitsToNat l).map (fun n => (n : Int))

/-- True iff `k` is one of the bone's `refKeys` or a dotted sub-field of
one (`k in self.refKeys or any(k.startswith("%s." % x) for x in
self.refKeys)`, line 484 of the source). -/
def refFieldMember (refKeys : List String) (k : String) : Bool :=
  refKeys.contains k || refKeys.any (fun x => pyStartsWith k (x ++ "."))

/-- Projection of a cache onto the fields selected by a predicate,
keeping order. -/
def projectPred (p : String → Bool) (c : Cache) : Cache :=
  c.filter (fun kv => p kv.1)

/-- Decode a cache value into a datastore key, if it is one. -/
def decodeKey : Option Val → Option DBKey
  | some (.key k) => some k
  | _ => none

/-- A serialized reference snapshot: a `db.Entity` as produced by
`RefSkel.serialize()` — the entity key plus the denormalized properties. -/
structure SerEnt where
  key : Option DBKey
  props : Cache
deriving DecidableEq

/-- Modelled from the spec: `RefSkel.serialize()` (from
`viur.core.skeleton`, not part of this repository).  It produces a
datastore entity holding exactly the denormalized `refKeys` fields (and
their dotted sub-fields) of the values cache; the entity key is the
referenced entity's identity stored under `"key"` (the spec requires
`dest` to contain a `key` field identifying the referenced entity). -/
def refSkelSerialize (refKeys : List String) (c : Cache) : SerEnt :=
  { key := decodeKey (cget c "key"),
    props := projectPred (refFieldMember refKeys) c }

/-- Modelled from the spec: `RefSkel.unserialize(entity)`.  It restores
the values cache from a serialized reference entity: the `"key"` field
comes from the entity key, every other declared `refKeys` field (and
dotted sub-fields) from the entity's properties. -/
def refSkelUnserialize (refKeys : List String) (e : SerEnt) : Cache :=
  (match e.key with
    | some k => [("key", Val.key k)]
    | none => []) ++
  projectPred (fun f => refFieldMember refKeys f && f != "key") e.props

/-- Modelled from the spec: the using-skeleton (edge schema) serializer —
projects the edge values cache onto the declared edge fields. -/
def usingSerialize (uKeys : List String) (c : Cache) : Cache :=
  projectPred (fun f => refFieldMember uKeys f) c

/-- One serialized relation entry as written into the entity:
`{"rel": usingData, "dest": refData}` (source lines 227 / 244). -/
structure SerRel where
  rel : Option Cache
  dest : Option SerEnt
deriving DecidableEq

/-- The datastore representation of the bone's property
(`skeletonValues.entity[name]`). -/
inductive StoredVal where
  | none_ : StoredVal
  | one (r : SerRel) : StoredVal
  | many (rs : List SerRel) : StoredVal
deriving DecidableEq

/-- `_restoreValueFromDatastore` (source lines 133-158): restore one
value, rebuilding the RefSkel cache from `value["dest"]` and, when the
bone has a using-skeleton, the using cache from `value["rel"]` (an absent
`rel` yields the empty cache, since the using skeleton is reset with
`setValuesCache({})` and only unserialized when `value["rel"] is not
None`). -/
def restoreValueFromDatastore (bone : Bone) (sr : SerRel) : RelVal :=
  { dest :=
      match sr.dest with
      | some e => refSkelUnserialize bone.refKeys e
      | none => [],
    rel :=
      match bone.usingKeys with
      | none => none
      | some uKeys =>
        match sr.rel with
        | none => some []
        | some d => some (projectPred (fun f => refFieldMember uKeys f) d) }

/-- `relationalBone.unserialize` (source lines 160-199), restricted to the
bone's own property.  `none` input models `name not in
skeletonValues.entity` (the method returns `False`); otherwise the method
returns `True` after storing the restored value in `accessedValues`. -/
def unserialize (bone : Bone) (stored : Option StoredVal) : Option BoneVal :=
  match stored with
  | none => none
  | some val =>
    if bone.multiple then
      some (.list
        (match val with
        | .none_ => []
        | .many rs => rs.map (restoreValueFromDatastore bone)
        | .one r => [restoreValueFromDatastore bone r]))
    else
      some
        (match val with
        | .many rs =>
          match rs with
          | [] => .none_
          | r :: _ => .single (restoreValueFromDatastore bone r)
        | .one r => .single (restoreValueFromDatastore bone r)
        | .none_ => .none_)

/-- A stored datastore entity (destination side of relations).  The
property `viur_incomming_relational_locks` is modelled as the field
`incoming` (`none` = property absent or `None`). -/
structure DEntity where
  key : DBKey
  props : Cache
  incoming : Option (List String)
deriving DecidableEq

/-- Modelled from the spec: the entity store, a key/value collection
with `get`/`put` primitives. -/
abbrev DB := List DEntity

/-- Modelled from the spec: `db.Get(key)` — `None` when absent. -/
def dbGet (db : DB) (k : DBKey) : Option DEntity :=
  db.find? (fun e => e.key = k)

/-- Modelled from the spec: `db.Put(entity)` — replace the entity stored
under the same key, or insert it. -/
def dbPut (db : DB) (e : DEntity) : DB :=
  db.filter (fun x => x.key != e.key) ++ [e]

/-- The referencing skeleton's entity, viewed through the fields that
`relationalBone.serialize`/`unserialize` touch for one bone `name`:
`name` is `entity.name` (the referencing entity's identity used in lock
lists), `boneVal` is `entity[<boneName>]`, `outLocks` is
`entity["<boneName>_outgoingRelationalLocks"]` and `dotted` are the
leftover denormalized sibling properties `"<boneName>.<suffix>"`. -/
structure SkelEntity where
  name : String
  boneVal : StoredVal
  outLocks : Option (List Val)
  dotted : Cache
deriving DecidableEq

/-- The pair handed to `serialize`: the entity under construction plus
`accessedValues.get(<boneName>)` (`none` = name not in accessedValues). -/
structure SkelValues where
  entity : SkelEntity
  accessed : Option BoneVal
deriving DecidableEq

/-- Python truthiness of an `accessedValues` entry: `None` and the empty
list are falsy, a relation dict (it always has the two keys `dest` and
`rel`) and a non-empty list are truthy. -/
def truthyBV : BoneVal → Bool
  | .none_ => false
  | .single _ => true
  | .list [] => false
  | .list (_ :: _) => true

/-- Insert a value into a deduplicated list (`set.add`). -/
def addLock (l : List Val) (v : Val) : List Val :=
  if l.contains v then l else l ++ [v]

/-- `set(...)` of a value list, insertion-ordered. -/
def dedupVals (l : List Val) : List Val :=
  l.foldl addLock []

/-- The serialized form of one relation value (the body of the per-value
work in `serialize`, lines 216-227 / 233-244): `dest` is
`refSkel.serialize()` when `val["dest"]` is truthy, else `None`; `rel` is
`usingSkel.serialize()` when the bone has a using-skeleton and
`val["rel"]` is truthy, else `None`. -/
def serRelOf (bone : Bone) (v : RelVal) : SerRel :=
  { rel :=
      match bone.usingKeys, v.rel with
      | some uk, some rc => if rc != [] then some (usingSerialize uk rc) else none
      | _, _ => none,
    dest := if v.dest != [] then some (refSkelSerialize bone.refKeys v.dest) else none }

/-- The outgoing-lock key collected for one value in the `multiple`
branch (`newRelationalLocks.add(refData["key"])`, source line 219; a
missing `"key"` property on the serialized reference raises `KeyError`). -/
def lockKeyMulti (bone : Bone) (v : RelVal) : Except String (List Val) :=
  if v.dest != [] then
    match cget (refSkelSerialize bone.refKeys v.dest).props "key" with
    | some kv => .ok [kv]
    | none => .error "KeyError: key"
  else .ok []

/-- The per-value serialization loop of the `multiple` branch
(source lines 212-229), collecting the serialized entries and the
outgoing-lock keys. -/
def serializeMulti (bone : Bone) : List RelVal → Except String (List SerRel × List Val)
  | [] => .ok ([], [])
  | v :: vs =>
    match lockKeyMulti bone v with
    | .error e => .error e
    | .ok lock =>
      match serializeMulti bone vs with
      | .error e => .error e
      | .ok (rest, locks) => .ok (serRelOf bone v :: rest, lock ++ locks)

/-- Computation of `skeletonValues.entity[name]` and the raw outgoing-lock
key set (source lines 208-245).  The single branch reads the lock key from
the values cache (`refSkel["key"]`, line 236), the multiple branch from
the serialized entity (`refData["key"]`, line 219). -/
def serializeValue (bone : Bone) (accessed : Option BoneVal) :
    Except String (StoredVal × List Val) :=
  match accessed with
  | none => .ok (.none_, [])
  | some av =>
    if truthyBV av = false then .ok (.none_, [])
    else if bone.multiple then
      match av with
      | .list vs =>
        match serializeMulti bone vs with
        | .error e => .error e
        | .ok (rs, locks) => .ok (.many rs, locks)
      | _ => .error "TypeError"
    else
      match av with
      | .single v =>
        match
          (if v.dest != [] then
            match cget v.dest "key" with
            | some kv => Except.ok [kv]
            | none => Except.error "KeyError: key"
          else Except.ok ([] : List Val)) with
        | .error e => .error e
        | .ok lock => .ok (.one (serRelOf bone v), lock)
      | _ => .error "TypeError"

/-- Locking one newly referenced key (source lines 262-270): fetch the
referenced entity (`assert referencedObj`), assert the referencing
identity is not yet in its incoming-lock list, append it and put.  The
lock value must be a string identifier for `db.Key(self.kind, newLock)`
to succeed. -/
def lockOne (kind ident : String) (db : DB) (nl : Val) : Except String DB :=
  match nl with
  | .str s =>
    match dbGet db ⟨kind, s⟩ with
    | none => .error "Programming error detected?"
    | some obj =>
      let inc := obj.incoming.getD []
      if inc.contains ident then .error "assert: identity already holds a lock"
      else .ok (dbPut db { obj with incoming := some (inc ++ [ident]) })
  | _ => .error "TypeError: db.Key"

/-- Removing one stale lock (source lines 271-278): fetch the referenced
entity, assert its incoming-lock list exists and contains the referencing
identity, remove the first occurrence and put. -/
def unlockOne (kind ident : String) (db : DB) (ol : Val) : Except String DB :=
  match ol with
  | .str s =>
    match dbGet db ⟨kind, s⟩ with
    | none => .error "Programming error detected?"
    | some obj =>
      match obj.incoming with
      | none => .error "Programming error detected?"
      | some inc =>
        if inc.contains ident then
          .ok (dbPut db { obj with incoming := some (inc.erase ident) })
        else .error "Programming error detected?"
  | _ => .error "TypeError: db.Key"

/-- The previously stored outgoing locks, read as a set
(`set(skeletonValues.entity.get("%s_outgoingRelationalLocks" % name) or [])`). -/
def oldLocksOf (sv : SkelValues) : List Val :=
  dedupVals (sv.entity.outLocks.getD [])

/-- The final outgoing-lock set: forced empty unless the consistency
policy is `PreventDeletion` (source lines 257-259). -/
def newLocksOf (bone : Bone) (locksRaw : List Val) : List Val :=
  if bone.consistency != RelationalConsistency.PreventDeletion then []
  else dedupVals locksRaw

/-- `newLocks - oldLocks`: the keys to lock (source line 262). -/
def toLockOf (bone : Bone) (sv : SkelValues) (locksRaw : List Val) : List Val :=
  (newLocksOf bone locksRaw).filter (fun v => !((oldLocksOf sv).contains v))

/-- `oldLocks - newLocks`: the keys to unlock (source line 271). -/
def toUnlockOf (bone : Bone) (sv : SkelValues) (locksRaw : List Val) : List Val :=
  (oldLocksOf sv).filter (fun v => !((newLocksOf bone locksRaw).contains v))

/-- The entity as written by `serialize`: dotted sibling properties
purged, the bone property and the outgoing-lock list set. -/
def serializedEntity (bone : Bone) (sv : SkelValues) (stored : StoredVal)
    (locksRaw : List Val) : SkelEntity :=
  { sv.entity with
    dotted := [], boneVal := stored,
    outLocks := some (newLocksOf bone locksRaw) }

/-- `relationalBone.serialize` (source lines 201-279): purge the stale
`"<name>.<suffix>"` sibling properties, write the serialized bone value
and the outgoing-lock list (forced empty unless the consistency policy is
`PreventDeletion`), then reconcile the incoming-lock lists of referenced
entities for newly acquired and released locks. -/
def serialize (bone : Bone) (sv : SkelValues) (db : DB) :
    Except String (SkelEntity × DB) :=
  match serializeValue bone sv.accessed with
  | .error e => .error e
  | .ok (stored, locksRaw) =>
    match (toLockOf bone sv locksRaw).foldlM (lockOne bone.kind sv.entity.name) db with
    | .error e => .error e
    | .ok db1 =>
      match (toUnlockOf bone sv locksRaw).foldlM (unlockOne bone.kind sv.entity.name) db1 with
      | .error e => .error e
      | .ok db2 => .ok (serializedEntity bone sv stored locksRaw, db2)

/-- The restriction of a dest values cache to the denormalized subset:
the identity under `"key"` plus the `refKeys` fields and their dotted
sub-fields. -/
def restrictDest (refKeys : List String) (c : Cache) : Cache :=
  (match decodeKey (cget c "key") with
    | some k => [("key", Val.key k)]
    | none => []) ++
  projectPred (fun f => refFieldMember refKeys f && f != "key") c

/-- The restriction of a whole relation value to the fields within
`refKeys` and the edge schema. -/
def restrictRel (bone : Bone) (v : RelVal) : RelVal :=
  { dest := restrictDest bone.refKeys v.dest,
    rel :=
      match bone.usingKeys with
      | none => none
      | some uk => some (usingSerialize uk (v.rel.getD [])) }

lemma projectPred_projectPred (p q : String → Bool) (c : Cache) :
    projectPred q (projectPred p c) = projectPred (fun f => p f && q f) c := by
  induction c with
  | nil => rfl
  | cons kv t ih =>
    by_cases hp : p kv.1 <;> by_cases hq : q kv.1 <;>
      simp [projectPred, List.filter_cons, hp, hq] at ih ⊢ <;> exact ih

lemma projectPred_congr {p q : String → Bool} (c : Cache)
    (h : ∀ f, p f = q f) : projectPred p c = projectPred q c := by
  have hpq : p = q := funext h
  rw [hpq]

/-- Restoration of a freshly serialized relation value yields exactly the
restriction of the original to the denormalized subset. -/
lemma restore_serRelOf (bone : Bone) (v : RelVal) :
    restoreValueFromDatastore bone (serRelOf bone v) = restrictRel bone v := by
  unfold restoreValueFromDatastore serRelOf restrictRel
  congr 1
  · by_cases hd : v.dest = []
    · simp [hd, restrictDest, cget, decodeKey, projectPred]
    · have hd2 : (v.dest != []) = true := by simpa using hd
      simp only [hd2, if_pos]
      unfold refSkelUnserialize refSkelSerialize restrictDest
      congr 1
      rw [projectPred_projectPred]
      apply projectPred_congr
      intro f
      cases hm : refFieldMember bone.refKeys f <;> simp [hm]
  · cases hu : bone.usingKeys with
    | none => simp
    | some uk =>
      cases hr : v.rel with
      | none => simp [usingSerialize, projectPred]
      | some rc =>
        by_cases hrc : rc = []
        · simp [hrc, usingSerialize, projectPred]
        · have hrc2 : (rc != []) = true := by simpa using hrc
          simp only [hrc2, if_pos, Option.getD]
          unfold usingSerialize
          rw [projectPred_projectPred]
          exact congrArg some (projectPred_congr rc (fun f => Bool.and_self _))

lemma serializeMulti_ok {bone : Bone} {vs : List RelVal} {rs : List SerRel}
    {lks : List Val} (h : serializeMulti bone vs = .ok (rs, lks)) :
    rs = vs.map (serRelOf bone) := by
  induction vs generalizing rs lks with
  | nil =>
    unfold serializeMulti at h
    simp at h
    simp [h.1]
  | cons v t ih =>
    unfold serializeMulti at h
    split at h
    · exact absurd h (by simp)
    · split at h
      · exact absurd h (by simp)
      · rename_i rest locks hrec
        simp at h
        obtain ⟨h1, _⟩ := h
        rw [← h1, ih hrec]
        simp

lemma serialize_ok_inv {bone : Bone} {sv : SkelValues} {db : DB}
    {e2 : SkelEntity} {db2 : DB} (h : serialize bone sv db = .ok (e2, db2)) :
    ∃ locks, serializeValue bone sv.accessed = .ok (e2.boneVal, locks) := by
  unfold serialize at h
  split at h
  · exact absurd h (by simp)
  · rename_i stored locksRaw hsv
    split at h
    · exact absurd h (by simp)
    · split at h
      · exact absurd h (by simp)
      · simp only [Except.ok.injEq, Prod.mk.injEq] at h
        obtain ⟨h1, _⟩ := h
        refine ⟨locksRaw, ?_⟩
        rw [hsv, ← h1]
        rfl

/-- C1: for every relation value (dest/rel pair) the unserialization of a
freshly serialized bone property yields the value again restricted to the
fields within `refKeys` and the edge schema, for both `multiple=False`
(single values) and `multiple=True` (lists of values). -/
theorem serialize_unserialize_roundtrip (bone : Bone) (sv : SkelValues)
    (db : DB) (e2 : SkelEntity) (db2 : DB)
    (hok : serialize bone sv db = .ok (e2, db2)) :
    (∀ v, bone.multiple = false → sv.accessed = some (.single v) →
      unserialize bone (some e2.boneVal) = some (.single (restrictRel bone v)))
    ∧ (∀ vs, bone.multiple = true → sv.accessed = some (.list vs) →
      unserialize bone (some e2.boneVal) = some (.list (vs.map (restrictRel bone)))) := by
  obtain ⟨locks, hsv⟩ := serialize_ok_inv hok
  constructor
  · intro v hm hacc
    rw [hacc] at hsv
    unfold serializeValue at hsv
    simp only [truthyBV, hm, Bool.true_eq_false, if_false, if_neg,
      Bool.false_eq_true] at hsv
    split at hsv
    · exact absurd hsv (by simp)
    · simp only [Except.ok.injEq, Prod.mk.injEq] at hsv
      obtain ⟨h1, _⟩ := hsv
      rw [← h1]
      unfold unserialize
      rw [hm]
      simp [restore_serRelOf]
  · intro vs hm hacc
    rw [hacc] at hsv
    unfold serializeValue at hsv
    cases vs with
    | nil =>
      simp only [truthyBV, hm, if_true, if_pos] at hsv
      simp only [Except.ok.injEq, Prod.mk.injEq] at hsv
      obtain ⟨h1, _⟩ := hsv
      rw [← h1]
      unfold unserialize
      rw [hm]
      simp
    | cons v t =>
      simp only [truthyBV, hm, Bool.true_eq_false, if_false, if_neg, if_true,
        Bool.false_eq_true] at hsv
      split at hsv
      · exact absurd hsv (by simp)
      · rename_i rs lks hrec
        simp only [Except.ok.injEq, Prod.mk.injEq] at hsv
        obtain ⟨h1, _⟩ := hsv
        rw [← h1]
        unfold unserialize
        rw [hm]
        have hmap := serializeMulti_ok hrec
        rw [hmap]
        simp only [Option.some.injEq, List.map_map]
        have hcomp : restoreValueFromDatastore bone ∘ serRelOf bone =
            restrictRel bone := funext (restore_serRelOf bone)
        rw [hcomp]
        simp

def rtBoneS : Bone :=
  ⟨"page", ["key", "name"], ["key"], false, none, 0, .Ignore, false⟩

def rtBoneM : Bone :=
  ⟨"page", ["key", "name"], ["key"], true, some ["comment"], 0, .Ignore, false⟩

def rtVal : RelVal :=
  ⟨[("key", .key ⟨"page", "p1"⟩), ("name", .str "Acme")],
   some [("comment", .str "hi")]⟩

def rtSvS : SkelValues :=
  ⟨⟨"src1", .none_, none, [("b.dest.name", .str "old")]⟩, some (.single rtVal)⟩

def rtSvM : SkelValues :=
  ⟨⟨"src1", .none_, none, []⟩, some (.list [rtVal])⟩

def rtEntS : SkelEntity :=
  ⟨"src1",
   .one ⟨none, some ⟨some ⟨"page", "p1"⟩,
     [("key", .key ⟨"page", "p1"⟩), ("name", .str "Acme")]⟩⟩,
   some [], []⟩

def rtEntM : SkelEntity :=
  ⟨"src1",
   .many [⟨some [("comment", .str "hi")], some ⟨some ⟨"page", "p1"⟩,
     [("key", .key ⟨"page", "p1"⟩), ("name", .str "Acme")]⟩⟩],
   some [], []⟩

/-- Witness for C1: the round trip evaluated on a concrete single-valued
bone and a concrete multiple-valued bone with an edge schema. -/
theorem serialize_unserialize_roundtrip_witness :
    unserialize rtBoneS (some rtEntS.boneVal)
      = some (.single (restrictRel rtBoneS rtVal))
    ∧ unserialize rtBoneM (some rtEntM.boneVal)
      = some (.list ([rtVal].map (restrictRel rtBoneM))) :=
  ⟨(serialize_unserialize_roundtrip rtBoneS rtSvS [] rtEntS []
      (by rfl)).1 rtVal rfl rfl,
   (serialize_unserialize_roundtrip rtBoneM rtSvM [] rtEntM []
      (by rfl)).2 [rtVal] rfl rfl⟩

lemma dbGet_some_key {db : DB} {k : DBKey} {e : DEntity}
    (h : dbGet db k = some e) : e.key = k := by
  unfold dbGet at h
  induction db with
  | nil => simp at h
  | cons x t ih =>
    rw [List.find?_cons] at h
    split at h
    · rename_i hx
      simp at h hx
      rw [← h]
      exact hx
    · exact ih h

lemma find_filter_imp {p q : DEntity → Bool} (l : List DEntity)
    (h : ∀ x, p x = true → q x = true) :
    (l.filter q).find? p = l.find? p := by
  induction l with
  | nil => rfl
  | cons x t ih =>
    by_cases hp : p x = true
    · rw [List.filter_cons, if_pos (h x hp)]
      rw [List.find?_cons_of_pos _ hp, List.find?_cons_of_pos _ hp]
    · have hp2 : p x = false := by simpa using hp
      rw [List.find?_cons_of_neg _ (by simp [hp2])]
      rw [List.filter_cons]
      split
      · rw [List.find?_cons_of_neg _ (by simp [hp2])]
        exact ih
      · exact ih

lemma dbGet_dbPut_same {db : DB} {e : DEntity} :
    dbGet (dbPut db e) e.key = some e := by
  unfold dbGet dbPut
  rw [List.find?_append]
  have h1 : (db.filter (fun x => x.key != e.key)).find?
      (fun x => x.key = e.key) = none := by
    rw [List.find?_eq_none]
    intro x hx
    simp only [List.mem_filter] at hx
    simpa using hx.2
  rw [h1]
  simp

lemma dbGet_dbPut_other {db : DB} {e : DEntity} {k : DBKey}
    (hk : k ≠ e.key) : dbGet (dbPut db e) k = dbGet db k := by
  unfold dbGet dbPut
  rw [List.find?_append]
  have h1 : List.find? (fun x => x.key = k) [e] = none := by
    simp
    exact fun h => hk h.symm
  rw [h1]
  have h2 : (db.filter (fun x => x.key != e.key)).find?
      (fun x => x.key = k) = db.find? (fun x => x.key = k) := by
    apply find_filter_imp
    intro x hx
    simp only [decide_eq_true_eq] at hx
    simp only [bne_iff_ne, ne_eq]
    rw [hx]
    exact hk
  rw [h2]
  simp

lemma lockOne_ok_inv {kind ident : String} {db : DB} {nl : Val} {db1 : DB}
    (h : lockOne kind ident db nl = .ok db1) :
    ∃ s obj, nl = .str s ∧ dbGet db ⟨kind, s⟩ = some obj ∧
      (obj.incoming.getD []).contains ident = false ∧
      db1 = dbPut db { obj with incoming := some ((obj.incoming.getD []) ++ [ident]) } := by
  cases nl with
  | str s =>
    simp only [lockOne] at h
    split at h
    · exact absurd h (by simp)
    · rename_i obj hget
      split at h
      · exact absurd h (by simp)
      · rename_i hc
        simp only [Except.ok.injEq] at h
        exact ⟨s, obj, rfl, hget, by simpa using hc, h.symm⟩
  | none_ => exact absurd h (by simp [lockOne])
  | int n => exact absurd h (by simp [lockOne])
  | key k => exact absurd h (by simp [lockOne])
  | list xs => exact absurd h (by simp [lockOne])

lemma unlockOne_ok_inv {kind ident : String} {db : DB} {ol : Val} {db1 : DB}
    (h : unlockOne kind ident db ol = .ok db1) :
    ∃ s obj inc, ol = .str s ∧ dbGet db ⟨kind, s⟩ = some obj ∧
      obj.incoming = some inc ∧ inc.contains ident = true ∧
      db1 = dbPut db { obj with incoming := some (inc.erase ident) } := by
  cases ol with
  | str s =>
    simp only [unlockOne] at h
    split at h
    · exact absurd h (by simp)
    · rename_i obj hget
      split at h
      · exact absurd h (by simp)
      · rename_i inc hinc
        split at h
        · rename_i hc
          simp only [Except.ok.injEq] at h
          exact ⟨s, obj, inc, rfl, hget, hinc, hc, h.symm⟩
        · exact absurd h (by simp)
  | none_ => exact absurd h (by simp [unlockOne])
  | int n => exact absurd h (by simp [unlockOne])
  | key k => exact absurd h (by simp [unlockOne])
  | list xs => exact absurd h (by simp [unlockOne])

lemma lockOne_frame {kind ident : String} {db : DB} {nl : Val} {db1 : DB}
    (h : lockOne kind ident db nl = .ok db1) {k : DBKey}
    (hk : ∀ s, nl = .str s → k ≠ ⟨kind, s⟩) : dbGet db1 k = dbGet db k := by
  obtain ⟨s, obj, hnl, hget, _, hdb⟩ := lockOne_ok_inv h
  have hkey0 : obj.key = (⟨kind, s⟩ : DBKey) := dbGet_some_key hget
  rw [hdb, dbGet_dbPut_other]
  simp only []
  rw [hkey0]
  exact hk s hnl

lemma unlockOne_frame {kind ident : String} {db : DB} {ol : Val} {db1 : DB}
    (h : unlockOne kind ident db ol = .ok db1) {k : DBKey}
    (hk : ∀ s, ol = .str s → k ≠ ⟨kind, s⟩) : dbGet db1 k = dbGet db k := by
  obtain ⟨s, obj, inc, hol, hget, _, _, hdb⟩ := unlockOne_ok_inv h
  have hkey0 : obj.key = (⟨kind, s⟩ : DBKey) := dbGet_some_key hget
  rw [hdb, dbGet_dbPut_other]
  simp only []
  rw [hkey0]
  exact hk s hol

lemma foldLock_frame {kind ident : String} {l : List Val} {db db1 : DB}
    (h : l.foldlM (lockOne kind ident) db = .ok db1) {k : DBKey}
    (hk : ∀ s, Val.str s ∈ l → k ≠ ⟨kind, s⟩) : dbGet db1 k = dbGet db k := by
  induction l generalizing db with
  | nil =>
    simp only [List.foldlM_nil] at h
    simp only [pure, Except.pure, Except.ok.injEq] at h
    rw [h]
  | cons a t ih =>
    rw [List.foldlM_cons] at h
    cases hstep : lockOne kind ident db a with
    | error e => rw [hstep] at h; exact absurd h (by simp [Bind.bind, Except.bind])
    | ok dbm =>
      rw [hstep] at h
      simp only [Bind.bind, Except.bind] at h
      rw [ih h (fun s hs => hk s (List.mem_cons_of_mem _ hs))]
      exact lockOne_frame hstep (fun s ha => hk s (ha ▸ List.mem_cons_self a t))

lemma foldUnlock_frame {kind ident : String} {l : List Val} {db db1 : DB}
    (h : l.foldlM (unlockOne kind ident) db = .ok db1) {k : DBKey}
    (hk : ∀ s, Val.str s ∈ l → k ≠ ⟨kind, s⟩) : dbGet db1 k = dbGet db k := by
  induction l generalizing db with
  | nil =>
    simp only [List.foldlM_nil] at h
    simp only [pure, Except.pure, Except.ok.injEq] at h
    rw [h]
  | cons a t ih =>
    rw [List.foldlM_cons] at h
    cases hstep : unlockOne kind ident db a with
    | error e => rw [hstep] at h; exact absurd h (by simp [Bind.bind, Except.bind])
    | ok dbm =>
      rw [hstep] at h
      simp only [Bind.bind, Except.bind] at h
      rw [ih h (fun s hs => hk s (List.mem_cons_of_mem _ hs))]
      exact unlockOne_frame hstep (fun s ha => hk s (ha ▸ List.mem_cons_self a t))

lemma foldLock_mem {kind ident : String} {l : List Val} {s : String}
    (hmem : Val.str s ∈ l) (hnd : l.Nodup) (db : DB) :
    (dbGet db ⟨kind, s⟩ = none →
      ∃ msg, l.foldlM (lockOne kind ident) db = .error msg)
    ∧ (∀ obj, dbGet db ⟨kind, s⟩ = some obj →
        (obj.incoming.getD []).contains ident = true →
        ∃ msg, l.foldlM (lockOne kind ident) db = .error msg)
    ∧ (∀ db1 obj, l.foldlM (lockOne kind ident) db = .ok db1 →
        dbGet db ⟨kind, s⟩ = some obj →
        dbGet db1 ⟨kind, s⟩ =
          some { obj with incoming := some ((obj.incoming.getD []) ++ [ident]) }) := by
  induction l generalizing db with
  | nil => exact absurd hmem (by simp)
  | cons a t ih =>
    rw [List.mem_cons] at hmem
    rw [List.nodup_cons] at hnd
    cases hmem with
    | inl ha =>
      subst ha
      refine ⟨?_, ?_, ?_⟩
      · intro hget
        have hstep : lockOne kind ident db (Val.str s) = .error "Programming error detected?" := by
          simp [lockOne, hget]
        refine ⟨"Programming error detected?", ?_⟩
        rw [List.foldlM_cons, hstep]
        simp [Bind.bind, Except.bind]
      · intro obj hget hc
        have hstep : lockOne kind ident db (Val.str s)
            = .error "assert: identity already holds a lock" := by
          simp [lockOne, hget, hc]
          simpa using hc
        refine ⟨"assert: identity already holds a lock", ?_⟩
        rw [List.foldlM_cons, hstep]
        simp [Bind.bind, Except.bind]
      · intro db1 obj hfold hget
        rw [List.foldlM_cons] at hfold
        cases hstep : lockOne kind ident db (Val.str s) with
        | error e =>
          rw [hstep] at hfold
          exact absurd hfold (by simp [Bind.bind, Except.bind])
        | ok dbm =>
          rw [hstep] at hfold
          simp only [Bind.bind, Except.bind] at hfold
          obtain ⟨s2, obj2, hs2, hget2, hc2, hdbm⟩ := lockOne_ok_inv hstep
          have hseq : s = s2 := by simpa using hs2
          subst hseq
          rw [hget] at hget2
          injection hget2 with hobj
          subst hobj
          have hkey0 : obj.key = (⟨kind, s⟩ : DBKey) := dbGet_some_key hget
          have hmid : dbGet dbm ⟨kind, s⟩ =
              some { obj with incoming := some ((obj.incoming.getD []) ++ [ident]) } := by
            rw [hdbm]
            have hk2 : ({ obj with
                incoming := some ((obj.incoming.getD []) ++ [ident]) } : DEntity).key
              = (⟨kind, s⟩ : DBKey) := hkey0
            rw [← hk2]
            exact dbGet_dbPut_same
          rw [foldLock_frame hfold ?hdisj]
          · exact hmid
          · intro s3 hs3
            intro hkeq
            have hs3s : s3 = s := by
              have := congrArg DBKey.ident hkeq
              simpa using this.symm
            subst hs3s
            exact hnd.1 hs3
    | inr hmemt =>
      have hstatements := fun db2 => ih hmemt hnd.2 db2
      refine ⟨?_, ?_, ?_⟩
      · intro hget
        cases hstep : lockOne kind ident db a with
        | error e =>
          refine ⟨e, ?_⟩
          rw [List.foldlM_cons, hstep]
          simp [Bind.bind, Except.bind]
        | ok dbm =>
          have hsame : dbGet dbm ⟨kind, s⟩ = dbGet db ⟨kind, s⟩ := by
            apply lockOne_frame hstep
            intro s3 ha3 hkeq
            have hs3s : s3 = s := by
              have := congrArg DBKey.ident hkeq
              simpa using this.symm
            subst hs3s
            rw [ha3] at hnd
            exact hnd.1 hmemt
          obtain ⟨msg, hmsg⟩ := (hstatements dbm).1 (hsame.trans hget)
          refine ⟨msg, ?_⟩
          rw [List.foldlM_cons, hstep]
          simp only [Bind.bind, Except.bind]
          exact hmsg
      · intro obj hget hc
        cases hstep : lockOne kind ident db a with
        | error e =>
          refine ⟨e, ?_⟩
          rw [List.foldlM_cons, hstep]
          simp [Bind.bind, Except.bind]
        | ok dbm =>
          have hsame : dbGet dbm ⟨kind, s⟩ = dbGet db ⟨kind, s⟩ := by
            apply lockOne_frame hstep
            intro s3 ha3 hkeq
            have hs3s : s3 = s := by
              have := congrArg DBKey.ident hkeq
              simpa using this.symm
            subst hs3s
            rw [ha3] at hnd
            exact hnd.1 hmemt
          obtain ⟨msg, hmsg⟩ := (hstatements dbm).2.1 obj (hsame.trans hget) hc
          refine ⟨msg, ?_⟩
          rw [List.foldlM_cons, hstep]
          simp only [Bind.bind, Except.bind]
          exact hmsg
      · intro db1 obj hfold hget
        rw [List.foldlM_cons] at hfold
        cases hstep : lockOne kind ident db a with
        | error e =>
          rw [hstep] at hfold
          exact absurd hfold (by simp [Bind.bind, Except.bind])
        | ok dbm =>
          rw [hstep] at hfold
          simp only [Bind.bind, Except.bind] at hfold
          have hsame : dbGet dbm ⟨kind, s⟩ = dbGet db ⟨kind, s⟩ := by
            apply lockOne_frame hstep
            intro s3 ha3 hkeq
            have hs3s : s3 = s := by
              have := congrArg DBKey.ident hkeq
              simpa using this.symm
            subst hs3s
            rw [ha3] at hnd
            exact hnd.1 hmemt
          exact (hstatements dbm).2.2 db1 obj hfold (hsame.trans hget)

lemma foldUnlock_mem {kind ident : String} {l : List Val} {s : String}
    (hmem : Val.str s ∈ l) (hnd : l.Nodup) (db : DB) :
    (dbGet db ⟨kind, s⟩ = none →
      ∃ msg, l.foldlM (unlockOne kind ident) db = .error msg)
    ∧ (∀ obj, dbGet db ⟨kind, s⟩ = some obj → obj.incoming = none →
        ∃ msg, l.foldlM (unlockOne kind ident) db = .error msg)
    ∧ (∀ obj inc, dbGet db ⟨kind, s⟩ = some obj → obj.incoming = some inc →
        inc.contains ident = false →
        ∃ msg, l.foldlM (unlockOne kind ident) db = .error msg)
    ∧ (∀ db1 obj inc, l.foldlM (unlockOne kind ident) db = .ok db1 →
        dbGet db ⟨kind, s⟩ = some obj → obj.incoming = some inc →
        dbGet db1 ⟨kind, s⟩ = some { obj with incoming := some (inc.erase ident) }) := by
  induction l generalizing db with
  | nil => exact absurd hmem (by simp)
  | cons a t ih =>
    rw [List.mem_cons] at hmem
    rw [List.nodup_cons] at hnd
    have hframe : ∀ {dbm : DB}, unlockOne kind ident db a = .ok dbm →
        a ≠ Val.str s → dbGet dbm ⟨kind, s⟩ = dbGet db ⟨kind, s⟩ := by
      intro dbm hstep hne
      apply unlockOne_frame hstep
      intro s3 ha3 hkeq
      have hs3s : s3 = s := by
        have := congrArg DBKey.ident hkeq
        simpa using this.symm
      subst hs3s
      exact hne ha3
    cases hmem with
    | inl ha =>
      subst ha
      refine ⟨?_, ?_, ?_, ?_⟩
      · intro hget
        refine ⟨"Programming error detected?", ?_⟩
        have hstep : unlockOne kind ident db (Val.str s)
            = .error "Programming error detected?" := by
          simp [unlockOne, hget]
        rw [List.foldlM_cons, hstep]
        simp [Bind.bind, Except.bind]
      · intro obj hget hinc
        refine ⟨"Programming error detected?", ?_⟩
        have hstep : unlockOne kind ident db (Val.str s)
            = .error "Programming error detected?" := by
          simp [unlockOne, hget, hinc]
        rw [List.foldlM_cons, hstep]
        simp [Bind.bind, Except.bind]
      · intro obj inc hget hinc hcf
        refine ⟨"Programming error detected?", ?_⟩
        have hstep : unlockOne kind ident db (Val.str s)
            = .error "Programming error detected?" := by
          simp [unlockOne, hget, hinc]
          simpa using hcf
        rw [List.foldlM_cons, hstep]
        simp [Bind.bind, Except.bind]
      · intro db1 obj inc hfold hget hinc
        rw [List.foldlM_cons] at hfold
        cases hstep : unlockOne kind ident db (Val.str s) with
        | error e =>
          rw [hstep] at hfold
          exact absurd hfold (by simp [Bind.bind, Except.bind])
        | ok dbm =>
          rw [hstep] at hfold
          simp only [Bind.bind, Except.bind] at hfold
          obtain ⟨s2, obj2, inc2, hs2, hget2, hinc2, hc2, hdbm⟩ := unlockOne_ok_inv hstep
          have hseq : s = s2 := by simpa using hs2
          subst hseq
          rw [hget] at hget2
          injection hget2 with hobj
          subst hobj
          rw [hinc] at hinc2
          injection hinc2 with hincs
          subst hincs
          have hkey0 : obj.key = (⟨kind, s⟩ : DBKey) := dbGet_some_key hget
          have hmid : dbGet dbm ⟨kind, s⟩ =
              some { obj with incoming := some (inc.erase ident) } := by
            rw [hdbm]
            have hk2 : ({ obj with
                incoming := some (inc.erase ident) } : DEntity).key
              = (⟨kind, s⟩ : DBKey) := hkey0
            rw [← hk2]
            exact dbGet_dbPut_same
          rw [foldUnlock_frame hfold ?hdisj2]
          · exact hmid
          · intro s3 hs3 hkeq
            have hs3s : s3 = s := by
              have := congrArg DBKey.ident hkeq
              simpa using this.symm
            subst hs3s
            exact hnd.1 hs3
    | inr hmemt =>
      have hane : a ≠ Val.str s := by
        intro ha
        rw [ha] at hnd
        exact hnd.1 hmemt
      have hstatements := fun db2 => ih hmemt hnd.2 db2
      refine ⟨?_, ?_, ?_, ?_⟩
      · intro hget
        cases hstep : unlockOne kind ident db a with
        | error e =>
          refine ⟨e, ?_⟩
          rw [List.foldlM_cons, hstep]
          simp [Bind.bind, Except.bind]
        | ok dbm =>
          obtain ⟨msg, hmsg⟩ := (hstatements dbm).1 ((hframe hstep hane).trans hget)
          refine ⟨msg, ?_⟩
          rw [List.foldlM_cons, hstep]
          simp only [Bind.bind, Except.bind]
          exact hmsg
      · intro obj hget hinc
        cases hstep : unlockOne kind ident db a with
        | error e =>
          refine ⟨e, ?_⟩
          rw [List.foldlM_cons, hstep]
          simp [Bind.bind, Except.bind]
        | ok dbm =>
          obtain ⟨msg, hmsg⟩ :=
            (hstatements dbm).2.1 obj ((hframe hstep hane).trans hget) hinc
          refine ⟨msg, ?_⟩
          rw [List.foldlM_cons, hstep]
          simp only [Bind.bind, Except.bind]
          exact hmsg
      · intro obj inc hget hinc hcf
        cases hstep : unlockOne kind ident db a with
        | error e =>
          refine ⟨e, ?_⟩
          rw [List.foldlM_cons, hstep]
          simp [Bind.bind, Except.bind]
        | ok dbm =>
          obtain ⟨msg, hmsg⟩ :=
            (hstatements dbm).2.2.1 obj inc ((hframe hstep hane).trans hget) hinc hcf
          refine ⟨msg, ?_⟩
          rw [List.foldlM_cons, hstep]
          simp only [Bind.bind, Except.bind]
          exact hmsg
      · intro db1 obj inc hfold hget hinc
        rw [List.foldlM_cons] at hfold
        cases hstep : unlockOne kind ident db a with
        | error e =>
          rw [hstep] at hfold
          exact absurd hfold (by simp [Bind.bind, Except.bind])
        | ok dbm =>
          rw [hstep] at hfold
          simp only [Bind.bind, Except.bind] at hfold
          exact (hstatements dbm).2.2.2 db1 obj inc hfold
            ((hframe hstep hane).trans hget) hinc

lemma addLock_nodup {l : List Val} {v : Val} (h : l.Nodup) :
    (addLock l v).Nodup := by
  unfold addLock
  split
  · exact h
  · rename_i hc
    rw [← List.concat_eq_append]
    exact List.Nodup.concat (by simpa using hc) h

lemma dedupVals_nodup (l : List Val) : (dedupVals l).Nodup := by
  unfold dedupVals
  have hgen : ∀ acc : List Val, acc.Nodup → (l.foldl addLock acc).Nodup := by
    induction l with
    | nil => intro acc h; exact h
    | cons a t ih =>
      intro acc h
      rw [List.foldl_cons]
      exact ih _ (addLock_nodup h)
  exact hgen [] List.nodup_nil

lemma newLocksOf_nodup (bone : Bone) (locksRaw : List Val) :
    (newLocksOf bone locksRaw).Nodup := by
  unfold newLocksOf
  split
  · exact List.nodup_nil
  · exact dedupVals_nodup locksRaw

lemma toLockOf_nodup (bone : Bone) (sv : SkelValues) (locksRaw : List Val) :
    (toLockOf bone sv locksRaw).Nodup :=
  (newLocksOf_nodup bone locksRaw).filter _

lemma toUnlockOf_nodup (bone : Bone) (sv : SkelValues) (locksRaw : List Val) :
    (toUnlockOf bone sv locksRaw).Nodup :=
  (dedupVals_nodup _).filter _

lemma toLock_toUnlock_disjoint {bone : Bone} {sv : SkelValues}
    {locksRaw : List Val} {v : Val} (h1 : v ∈ toLockOf bone sv locksRaw)
    (h2 : v ∈ toUnlockOf bone sv locksRaw) : False := by
  unfold toLockOf at h1
  unfold toUnlockOf at h2
  rw [List.mem_filter] at h1 h2
  have hm : v ∈ newLocksOf bone locksRaw := h1.1
  have hnm := h2.2
  simp at hnm
  exact hnm hm

lemma serialize_ok_ent {bone : Bone} {sv : SkelValues} {db : DB}
    {e2 : SkelEntity} {db2 : DB} (h : serialize bone sv db = .ok (e2, db2)) :
    ∃ stored locksRaw, serializeValue bone sv.accessed = .ok (stored, locksRaw)
      ∧ e2 = serializedEntity bone sv stored locksRaw := by
  unfold serialize at h
  split at h
  · exact absurd h (by simp)
  · rename_i stored locksRaw hsv
    split at h
    · exact absurd h (by simp)
    · split at h
      · exact absurd h (by simp)
      · simp only [Except.ok.injEq, Prod.mk.injEq] at h
        exact ⟨stored, locksRaw, hsv, h.1.symm⟩

/-- C5: on every save, the computed outgoing-lock set is empty unless the
consistency policy is `PreventDeletion`; every newly locked key
(`newLocks - oldLocks`) has the referencing identity appended to the
referenced entity's incoming-lock list, failing fatally when the entity is
missing or the identity already present; every released key
(`oldLocks - newLocks`) has the identity removed, failing fatally when the
entity or the expected incoming-lock entry is missing. -/
theorem serialize_lock_management (bone : Bone) (sv : SkelValues) (db : DB)
    (stored : StoredVal) (locksRaw : List Val)
    (hsv : serializeValue bone sv.accessed = .ok (stored, locksRaw)) :
    (bone.consistency ≠ .PreventDeletion →
      newLocksOf bone locksRaw = []
      ∧ ∀ e2 db2, serialize bone sv db = .ok (e2, db2) → e2.outLocks = some [])
    ∧ (∀ s, Val.str s ∈ toLockOf bone sv locksRaw →
        ((dbGet db ⟨bone.kind, s⟩ = none →
            ∃ msg, serialize bone sv db = .error msg)
        ∧ (∀ obj, dbGet db ⟨bone.kind, s⟩ = some obj →
            (obj.incoming.getD []).contains sv.entity.name = true →
            ∃ msg, serialize bone sv db = .error msg)
        ∧ (∀ e2 db2 obj, serialize bone sv db = .ok (e2, db2) →
            dbGet db ⟨bone.kind, s⟩ = some obj →
            dbGet db2 ⟨bone.kind, s⟩ = some { obj with
              incoming := some ((obj.incoming.getD []) ++ [sv.entity.name]) })))
    ∧ (∀ s, Val.str s ∈ toUnlockOf bone sv locksRaw →
        ((dbGet db ⟨bone.kind, s⟩ = none →
            ∃ msg, serialize bone sv db = .error msg)
        ∧ (∀ obj, dbGet db ⟨bone.kind, s⟩ = some obj → obj.incoming = none →
            ∃ msg, serialize bone sv db = .error msg)
        ∧ (∀ obj inc, dbGet db ⟨bone.kind, s⟩ = some obj →
            obj.incoming = some inc →
            inc.contains sv.entity.name = false →
            ∃ msg, serialize bone sv db = .error msg)
        ∧ (∀ e2 db2 obj inc, serialize bone sv db = .ok (e2, db2) →
            dbGet db ⟨bone.kind, s⟩ = some obj → obj.incoming = some inc →
            dbGet db2 ⟨bone.kind, s⟩ = some { obj with
              incoming := some (inc.erase sv.entity.name) }))) := by
  have hser : serialize bone sv db =
      (match (toLockOf bone sv locksRaw).foldlM
          (lockOne bone.kind sv.entity.name) db with
       | .error e => .error e
       | .ok db1 =>
         match (toUnlockOf bone sv locksRaw).foldlM
             (unlockOne bone.kind sv.entity.name) db1 with
         | .error e => .error e
         | .ok db2 => .ok (serializedEntity bone sv stored locksRaw, db2)) := by
    unfold serialize
    rw [hsv]
  refine ⟨?_, ?_, ?_⟩
  · intro hcons
    have hnew : newLocksOf bone locksRaw = [] := by
      unfold newLocksOf
      rw [if_pos (by simpa using hcons)]
    refine ⟨hnew, ?_⟩
    intro e2 db2 hok
    rw [hser] at hok
    split at hok
    · exact absurd hok (by simp)
    · split at hok
      · exact absurd hok (by simp)
      · simp only [Except.ok.injEq, Prod.mk.injEq] at hok
        rw [← hok.1]
        unfold serializedEntity
        rw [hnew]
  · intro s hmem
    have hnd := toLockOf_nodup bone sv locksRaw
    have trip := @foldLock_mem bone.kind sv.entity.name _ _
      hmem hnd db
    have hdisjU : ∀ s3, Val.str s3 ∈ toUnlockOf bone sv locksRaw →
        (⟨bone.kind, s⟩ : DBKey) ≠ ⟨bone.kind, s3⟩ := by
      intro s3 hu hkeq
      have hs3 : s3 = s := by
        have := congrArg DBKey.ident hkeq
        simpa using this.symm
      subst hs3
      exact toLock_toUnlock_disjoint hmem hu
    refine ⟨?_, ?_, ?_⟩
    · intro hget
      obtain ⟨msg, hmsg⟩ := trip.1 hget
      exact ⟨msg, by rw [hser, hmsg]⟩
    · intro obj hget hc
      obtain ⟨msg, hmsg⟩ := trip.2.1 obj hget hc
      exact ⟨msg, by rw [hser, hmsg]⟩
    · intro e2 db2 obj hok hget
      rw [hser] at hok
      split at hok
      · exact absurd hok (by simp)
      · rename_i db1 heq1
        split at hok
        · exact absurd hok (by simp)
        · rename_i db2x heq2
          simp only [Except.ok.injEq, Prod.mk.injEq] at hok
          rw [← hok.2]
          rw [foldUnlock_frame heq2 ?hdj]
          · exact trip.2.2 db1 obj heq1 hget
          · intro s3 hs3
            exact hdisjU s3 hs3
  · intro s hmem3
    have hnd3 := toUnlockOf_nodup bone sv locksRaw
    have hdisjL : ∀ s3, Val.str s3 ∈ toLockOf bone sv locksRaw →
        (⟨bone.kind, s⟩ : DBKey) ≠ ⟨bone.kind, s3⟩ := by
      intro s3 hu hkeq
      have hs3 : s3 = s := by
        have := congrArg DBKey.ident hkeq
        simpa using this.symm
      subst hs3
      exact toLock_toUnlock_disjoint hu hmem3
    refine ⟨?_, ?_, ?_, ?_⟩
    · intro hget
      cases hf1 : (toLockOf bone sv locksRaw).foldlM
          (lockOne bone.kind sv.entity.name) db with
      | error e => exact ⟨e, by rw [hser, hf1]⟩
      | ok db1 =>
        have hsame : dbGet db1 ⟨bone.kind, s⟩ = dbGet db ⟨bone.kind, s⟩ :=
          foldLock_frame hf1 (fun s3 hs3 => hdisjL s3 hs3)
        obtain ⟨msg, hmsg⟩ := (@foldUnlock_mem bone.kind sv.entity.name _ _ hmem3 hnd3 db1).1 (hsame.trans hget)
        refine ⟨msg, ?_⟩
        rw [hser, hf1]
        simp [hmsg]
    · intro obj hget hinc
      cases hf1 : (toLockOf bone sv locksRaw).foldlM
          (lockOne bone.kind sv.entity.name) db with
      | error e => exact ⟨e, by rw [hser, hf1]⟩
      | ok db1 =>
        have hsame : dbGet db1 ⟨bone.kind, s⟩ = dbGet db ⟨bone.kind, s⟩ :=
          foldLock_frame hf1 (fun s3 hs3 => hdisjL s3 hs3)
        obtain ⟨msg, hmsg⟩ :=
          (@foldUnlock_mem bone.kind sv.entity.name _ _ hmem3 hnd3 db1).2.1 obj (hsame.trans hget) hinc
        refine ⟨msg, ?_⟩
        rw [hser, hf1]
        simp [hmsg]
    · intro obj inc hget hinc hcf
      cases hf1 : (toLockOf bone sv locksRaw).foldlM
          (lockOne bone.kind sv.entity.name) db with
      | error e => exact ⟨e, by rw [hser, hf1]⟩
      | ok db1 =>
        have hsame : dbGet db1 ⟨bone.kind, s⟩ = dbGet db ⟨bone.kind, s⟩ :=
          foldLock_frame hf1 (fun s3 hs3 => hdisjL s3 hs3)
        obtain ⟨msg, hmsg⟩ :=
          (@foldUnlock_mem bone.kind sv.entity.name _ _ hmem3 hnd3 db1).2.2.1 obj inc (hsame.trans hget) hinc hcf
        refine ⟨msg, ?_⟩
        rw [hser, hf1]
        simp [hmsg]
    · intro e2 db2 obj inc hok hget hinc
      rw [hser] at hok
      split at hok
      · exact absurd hok (by simp)
      · rename_i db1 heq1
        split at hok
        · exact absurd hok (by simp)
        · rename_i db2x heq2
          simp only [Except.ok.injEq, Prod.mk.injEq] at hok
          rw [← hok.2]
          have hsame : dbGet db1 ⟨bone.kind, s⟩ = dbGet db ⟨bone.kind, s⟩ :=
            foldLock_frame heq1 (fun s3 hs3 => hdisjL s3 hs3)
          exact (@foldUnlock_mem bone.kind sv.entity.name _ _ hmem3 hnd3 db1).2.2.2 db2x obj inc heq2
            (hsame.trans hget) hinc

def lkBone : Bone :=
  ⟨"page", ["key", "name"], ["key"], false, none, 0, .PreventDeletion, false⟩

def lkBoneI : Bone :=
  ⟨"page", ["key", "name"], ["key"], false, none, 0, .Ignore, false⟩

def lkVal : RelVal := ⟨[("key", .str "a"), ("name", .str "A")], none⟩

def lkSv : SkelValues :=
  ⟨⟨"srcA", .none_, some [.str "b"], []⟩, some (.single lkVal)⟩

def lkDb : DB :=
  [⟨⟨"page", "a"⟩, [], none⟩, ⟨⟨"page", "b"⟩, [], some ["srcA"]⟩]

def lkStored : StoredVal :=
  .one ⟨none, some ⟨none, [("key", .str "a"), ("name", .str "A")]⟩⟩

def lkEnt : SkelEntity := ⟨"srcA", lkStored, some [.str "a"], []⟩

def lkEntI : SkelEntity := ⟨"srcA", lkStored, some [], []⟩

def lkDbOut : DB :=
  [⟨⟨"page", "a"⟩, [], some ["srcA"]⟩, ⟨⟨"page", "b"⟩, [], some []⟩]

def lkDbOutI : DB :=
  [⟨⟨"page", "a"⟩, [], none⟩, ⟨⟨"page", "b"⟩, [], some []⟩]

/-- Witness for C5: concrete lock acquisition, lock release and the
empty-lock-set guarantee under a non-`PreventDeletion` policy. -/
theorem serialize_lock_management_witness :
    dbGet lkDbOut ⟨"page", "a"⟩ = some ⟨⟨"page", "a"⟩, [], some ["srcA"]⟩
    ∧ dbGet lkDbOut ⟨"page", "b"⟩ = some ⟨⟨"page", "b"⟩, [], some []⟩
    ∧ lkEntI.outLocks = some [] :=
  ⟨((serialize_lock_management lkBone lkSv lkDb lkStored [.str "a"]
      (by rfl)).2.1 "a" (by decide)).2.2 lkEnt lkDbOut ⟨⟨"page", "a"⟩, [], none⟩
      (by rfl) (by rfl),
   ((serialize_lock_management lkBone lkSv lkDb lkStored [.str "a"]
      (by rfl)).2.2 "b" (by decide)).2.2.2 lkEnt lkDbOut
      ⟨⟨"page", "b"⟩, [], some ["srcA"]⟩ ["srcA"] (by rfl) (by rfl) (by rfl),
   ((serialize_lock_management lkBoneI lkSv lkDb lkStored [.str "a"]
      (by rfl)).1 (by decide)).2 lkEntI lkDbOutI (by rfl)⟩

/-- A skeleton's values cache indexed by bone names. -/
abbrev ValuesCache := List (String × BoneVal)

def vcGet (vc : ValuesCache) (k : String) : Option BoneVal :=
  (vc.find? (fun p => p.1 = k)).map (fun p => p.2)

def vcSet (vc : ValuesCache) (k : String) (v : BoneVal) : ValuesCache :=
  if vc.any (fun p => p.1 = k) then
    vc.map (fun p => if p.1 = k then (k, v) else p)
  else vc ++ [(k, v)]

/-- The first component of a candidate `setBoneValue` tuple: a database
key, a string key, or something else. -/
inductive SBVK where
  | key (k : DBKey)
  | str (s : String)
  | other
deriving DecidableEq

/-- The Python `value` argument of `setBoneValue`: a `db.KeyClass`, a
string, a `(key, relSkel-instance)` tuple (`rs = some c` models the second
component being an instance of `self.using` with values `c`), a list, or
some other object. -/
inductive SBV where
  | key (k : DBKey)
  | str (s : String)
  | tup (k : SBVK) (rs : Option Cache)
  | list (xs : List SBV)
  | other

/-- The type dispatch of `setBoneValue` (source lines 953-986), producing
`realValue` as a list of (key-ish, using-values) pairs, or the
`ValueError` raised for a shape that does not fit the bone.  In the
`multiple and not using` branch a malformed `all(...)` over a
non-iterable raises a `TypeError` (line 966-968). -/
def sbvRealValue (bone : Bone) (boneName : String) (value : SBV) :
    Except String (List (SBV × Option Cache)) :=
  if !bone.multiple && bone.usingKeys.isNone then
    match value with
    | .key k => .ok [(.key k, none)]
    | .str s => .ok [(.str s, none)]
    | _ => .error ("You must supply exactly one Database-Key to " ++ boneName)
  else if !bone.multiple && bone.usingKeys.isSome then
    match value with
    | .tup (.key kk) (some rs) => .ok [(.key kk, some rs)]
    | .tup (.str s) (some rs) => .ok [(.str s, some rs)]
    | _ => .error ("You must supply a tuple of (Database-Key, relSkel) to " ++ boneName)
  else if bone.multiple && bone.usingKeys.isNone then
    match value with
    | .other => .error "TypeError: argument of type is not iterable"
    | .list xs => .ok (xs.map (fun x => (x, none)))
    | v => .ok [(v, none)]
  else
    match value with
    | .tup (.key kk) (some rs) => .ok [(.key kk, some rs)]
    | .tup (.str s) (some rs) => .ok [(.str s, some rs)]
    | .list xs =>
      if xs.all (fun x =>
          match x with
          | .tup (.key _) (some _) => true
          | .tup (.str _) (some _) => true
          | _ => false) then
        .ok (xs.map (fun x =>
          match x with
          | .tup (.key kk) (some rs) => (SBV.key kk, some rs)
          | .tup (.str s) (some rs) => (SBV.str s, some rs)
          | _ => (SBV.other, none)))
      else .error ("You must supply (db.Key, RelSkel) or a list hereof to " ++ boneName)
    | _ => .error ("You must supply (db.Key, RelSkel) or a list hereof to " ++ boneName)

/-- `relSkelFromKey` (source lines 941-949): resolve the key against the
datastore; `ok none` models the entity being absent (the helper logs and
returns `None`), an unusable key raises. -/
def relSkelFromKey (bone : Bone) (db : DB) (v : SBV) :
    Except String (Option Cache) :=
  match v with
  | .key k =>
    match dbGet db k with
    | none => .ok none
    | some e => .ok (some (refSkelUnserialize bone.refKeys ⟨some e.key, e.props⟩))
  | .str s =>
    match dbGet db ⟨bone.kind, s⟩ with
    | none => .ok none
    | some e => .ok (some (refSkelUnserialize bone.refKeys ⟨some e.key, e.props⟩))
  | _ => .error "TypeError: invalid key"

/-- The per-entry loop of the `multiple` branch (source lines 993-999):
resolve every entry; a missing entity makes the whole call return `False`
(`ok none`) without touching the cache. -/
def sbvBuildMulti (bone : Bone) (db : DB) :
    List (SBV × Option Cache) → Except String (Option (List RelVal))
  | [] => .ok (some [])
  | (k, rs) :: t =>
    match relSkelFromKey bone db k with
    | .error e => .error e
    | .ok none => .ok none
    | .ok (some destC) =>
      match sbvBuildMulti bone db t with
      | .error e => .error e
      | .ok none => .ok none
      | .ok (some rest) => .ok (some (⟨destC, rs⟩ :: rest))

/-- `relationalBone.setBoneValue` (source lines 922-1006).  The result
pairs the returned value (or the raised error) with the values cache after
the call. -/
def setBoneValue (bone : Bone) (db : DB) (vc : ValuesCache)
    (boneName : String) (value : SBV) (app : Bool) :
    (Except String Bool) × ValuesCache :=
  if app && !bone.multiple then
    (.error ("Bone " ++ boneName ++ " is not multiple, cannot append!"), vc)
  else
    match sbvRealValue bone boneName value with
    | .error e => (.error e, vc)
    | .ok realValue =>
      if !bone.multiple then
        match realValue with
        | [] => (.error "IndexError", vc)
        | (k0, rs0) :: _ =>
          match relSkelFromKey bone db k0 with
          | .error e => (.error e, vc)
          | .ok none => (.ok false, vc)
          | .ok (some destC) =>
            (.ok true, vcSet vc boneName (.single ⟨destC, rs0⟩))
      else
        match sbvBuildMulti bone db realValue with
        | .error e => (.error e, vc)
        | .ok none => (.ok false, vc)
        | .ok (some tmpRes) =>
          if app then
            let base :=
              match (vcGet vc boneName).getD .none_ with
              | .list vs => vs
              | _ => []
            (.ok true, vcSet vc boneName (.list (base ++ tmpRes)))
          else (.ok true, vcSet vc boneName (.list tmpRes))

/-- C10: calling `setBoneValue` with `append=True` on a bone declared with
`multiple=False` raises a `ValueError` and leaves the values cache
unchanged, for every input value. -/
theorem setBoneValue_append_nonmultiple (bone : Bone) (db : DB)
    (vc : ValuesCache) (boneName : String) (value : SBV)
    (hm : bone.multiple = false) :
    setBoneValue bone db vc boneName value true =
      (.error ("Bone " ++ boneName ++ " is not multiple, cannot append!"), vc) := by
  unfold setBoneValue
  rw [hm]
  simp

/-- Witness for C10 on a concrete bone, cache and value. -/
theorem setBoneValue_append_nonmultiple_witness :
    setBoneValue ⟨"page", ["key"], ["key"], false, none, 0, .Ignore, false⟩
        [] [("b", .none_)] "b" (.key ⟨"page", "p1"⟩) true =
      (.error "Bone b is not multiple, cannot append!", [("b", .none_)]) :=
  setBoneValue_append_nonmultiple _ [] [("b", .none_)] "b" (.key ⟨"page", "p1"⟩) rfl

/-- `db.KEY_SPECIAL_PROPERTY`. -/
def KEY_SPECIAL : String := "__key__"

/-- A datastore query as mutated by the filter-building methods.
`filters = none` models an unsatisfiable query (`filters is None`);
`filtersAreList` models the filters attribute holding a list (an
IN / != query).  `hooked` records that the relational filter/order hooks
have been installed. -/
structure DBQuery where
  collection : String
  filters : Option (List (String × Val))
  filtersAreList : Bool
  orders : List (String × Bool)
  anc : Option DBKey
  hooked : Bool
deriving DecidableEq

/-- Dict insert-or-overwrite used for `dbFilter.filter(k, v)`: replace
the binding in place when the key exists, else append. -/
def upsert : List (String × Val) → String → Val → List (String × Val)
  | [], k, v => [(k, v)]
  | p :: t, k, v => if p.1 = k then (k, v) :: t else p :: upsert t k v

/-- `dbFilter.filter(k, v)`. -/
def qFilter (q : DBQuery) (k : String) (v : Val) : DBQuery :=
  match q.filters with
  | none => q
  | some fl => { q with filters := some (upsert fl k v) }

/-- Lookup of a filter entry on the query. -/
def fget (q : DBQuery) (k : String) : Option Val :=
  cget (q.filters.getD []) k

/-- Python `s.split(".", n)`: split on dots keeping at most `n + 1` parts. -/
def pysplitDot (s : String) (n : Nat) : List String :=
  let parts := pySplitChar s '.'
  if parts.length ≤ n + 1 then parts
  else (parts.take n) ++ [String.intercalate "." (parts.drop n)]

/-- Python `s[:s.find(" ")] if " " in s else s`. -/
def cutAtSpace (s : String) : String :=
  if pyContainsChar s ' ' then (pySplitChar s ' ').headD s else s

/-- The old-filter merging loop of `_rewriteQuery` (source lines 561-580):
a `key=` filter becomes an ancestor constraint (a list/tuple value or an
undecodable key raises), any other filter must name a `parentKeys` field
and is re-written to `src.<field>`. -/
def mergeOldFilters (bone : Bone) (q : DBQuery) :
    List (String × Val) → Except String DBQuery
  | [] => .ok q
  | (k, v) :: t =>
    if k = KEY_SPECIAL then
      match v with
      | .list _ => .error "RuntimeError: multiple key filters are unsupported"
      | .key kk => mergeOldFilters bone { q with anc := some kk } t
      | _ => .error "TypeError: cannot convert to db.Key"
    else
      if bone.parentKeys.contains ((pySplitChar k '.').headD "") then
        mergeOldFilters bone (qFilter q ("src." ++ k) v) t
      else .error "RuntimeError: filter field is not in parentKeys"

/-- The old-sort merging loop of `_rewriteQuery` (source lines 581-589). -/
def mergeOldOrders (bone : Bone) :
    List (String × Bool) → Except String (List (String × Bool))
  | [] => .ok []
  | (k, d) :: t =>
    if k = KEY_SPECIAL then
      match mergeOldOrders bone t with
      | .error e => .error e
      | .ok rest => .ok ((k, d) :: rest)
    else if bone.parentKeys.contains k then
      match mergeOldOrders bone t with
      | .error e => .error e
      | .ok rest => .ok (("src." ++ k, d) :: rest)
    else .error "RuntimeError: sort field is not in parentKeys"

/-- `relationalBone._rewriteQuery` (source lines 543-592): move the query
onto the `viur-relations` collection, pin the source kind, destination
kind and source property, and merge the previous filters and sort orders
into the relation-index layout. -/
def rewriteQuery (bone : Bone) (name : String) (kindName : String)
    (q : DBQuery) : Except String DBQuery :=
  if q.filtersAreList then
    .error "NotImplementedError: multiple=True with IN or != filters"
  else
    let origFilter := q.filters.getD []
    let origOrders := q.orders
    let q1 : DBQuery := { q with filters := some [], collection := "viur-relations" }
    let q2 := qFilter (qFilter (qFilter q1
      "viur_src_kind =" (.str kindName))
      "viur_dest_kind =" (.str bone.kind))
      "viur_src_property" (.str name)
    match mergeOldFilters bone q2 origFilter with
    | .error e => .error e
    | .ok q3 =>
      match mergeOldOrders bone origOrders with
      | .error e => .error e
      | .ok orderList =>
        .ok (if orderList.isEmpty then q3 else { q3 with orders := orderList })

/-- Modelled from the spec: the referenced sub-schema's own
filter-building logic (`bone.buildDBFilter` of the RefSkel / using-skel
bones, external to this repository) — writes an equality filter on the
prefixed field name into the query. -/
def subBoneBuildDBFilter (pfx : String) (key : String) (value : Val)
    (q : DBQuery) : DBQuery :=
  qFilter q (pfx ++ key ++ " =") value

/-- Parsing of one relational raw-filter key (source lines 613-625):
`<bone>.<dest|rel>.<field>`; on a parse failure, `<bone>.<field>` is
re-interpreted as a dest query when the bone has no using-skeleton, and
skipped otherwise.  `some (isDest, key)` or `none` for `continue`. -/
def parseTypeKey (bone : Bone) (myKey : String) : Option (Bool × String) :=
  let fallback : Option (Bool × String) :=
    match bone.usingKeys with
    | none =>
      match pysplitDot myKey 1 with
      | [_, k] => some (true, k)
      | _ => none
    | some _ => none
  match pysplitDot myKey 2 with
  | [_, t, k] =>
    if t = "dest" then some (true, k)
    else if t = "rel" then some (false, k)
    else fallback
  | _ => fallback

/-- The `checkKey` normalization (source lines 627-633): strip any
trailing `.something` and `$something`. -/
def checkKeyOf (key : String) : String :=
  let c1 := if pyContainsChar key '.' then (pySplitChar key '.').headD key else key
  if pyContainsChar c1 '$' then (pySplitChar c1 '$').headD c1 else c1

/-- Processing of one relational filter key inside `buildDBFilter`
(source lines 610-667): reject a dest field outside `refKeys` and a rel
field outside the using schema, otherwise delegate to the sub-schema's
bones with the appropriate prefix. -/
def processOneKey (bone : Bone) (name : String) (pfx : Option String)
    (rawFilter : List (String × Val)) (q : DBQuery) (myKey : String) :
    Except String DBQuery :=
  let value := (cget rawFilter myKey).getD .none_
  match parseTypeKey bone myKey with
  | none => .ok q
  | some (isDest, key) =>
    let checkKey := checkKeyOf key
    if isDest then
      if bone.refKeys.contains checkKey = false then
        .error "RuntimeError: filter field is not in refKeys"
      else
        .ok (bone.refKeys.foldl (fun qq bname =>
          if checkKey = bname then
            subBoneBuildDBFilter
              (if bone.multiple then (pfx.getD "") ++ "dest."
               else (pfx.getD "") ++ name ++ ".dest.") key value qq
          else qq) q)
    else
      match bone.usingKeys with
      | none => .error "RuntimeError: filter field is not a bone in using"
      | some uks =>
        if uks.contains checkKey = false then
          .error "RuntimeError: filter field is not a bone in using"
        else
          .ok (uks.foldl (fun qq bname =>
            if pyStartsWith key bname then
              subBoneBuildDBFilter
                (if bone.multiple then (pfx.getD "") ++ "rel."
                 else (pfx.getD "") ++ name ++ ".rel.") key value qq
            else qq) q)

def processMyKeys (bone : Bone) (name : String) (pfx : Option String)
    (rawFilter : List (String × Val)) (q : DBQuery) :
    List String → Except String DBQuery
  | [] => .ok q
  | k :: t =>
    match processOneKey bone name pfx rawFilter q k with
    | .error e => .error e
    | .ok q1 => processMyKeys bone name pfx rawFilter q1 t

/-- `relationalBone.buildDBFilter` (source lines 594-676). -/
def buildDBFilter (bone : Bone) (name : String) (kindName : String)
    (q : DBQuery) (rawFilter : List (String × Val)) (pfx : Option String) :
    Except String DBQuery :=
  match q.filters with
  | none => .ok q
  | some _ =>
    let myKeys := (rawFilter.map Prod.fst).filter
      (fun x => pyStartsWith x (name ++ "."))
    if myKeys.length > 0 then
      match (if q.collection != "viur-relations" && bone.multiple then
               rewriteQuery bone name kindName q
             else .ok q) with
      | .error e => .error e
      | .ok q1 =>
        match processMyKeys bone name pfx rawFilter q1 myKeys with
        | .error e => .error e
        | .ok q2 =>
          .ok (if bone.multiple then { q2 with hooked := true } else q2)
    else
      match cget rawFilter name with
      | some (.str s) =>
        if pyLower s = "none" then .ok (qFilter q (name ++ " =") .none_)
        else .ok q
      | some _ => .error "AttributeError: lower"
      | none => .ok q

/-- `relationalBone.buildDBSort` (source lines 678-706).  Note that the
query is rewritten onto `viur-relations` before the orderby value is
parsed, and that a parse failure returns the (already rewritten) query
without error. -/
def buildDBSort (bone : Bone) (name : String) (kindName : String)
    (q : DBQuery) (rawFilter : List (String × Val)) :
    Except String DBQuery :=
  match q.filters with
  | none => .ok q
  | some _ =>
    match cget rawFilter "orderby" with
    | some (.str s) =>
      if pyStartsWith s (name ++ ".") then
        match (if q.collection != "viur-relations" then
                 rewriteQuery bone name kindName q
               else .ok q) with
        | .error e => .error e
        | .ok q1 =>
          match pySplitChar s '.' with
          | [_, t, param] =>
            if t = "dest" || t = "rel" then
              if t = "dest" && bone.refKeys.contains param = false then
                .error "RuntimeError: sort field is not in refKeys"
              else if t = "rel" && (bone.usingKeys.isNone ||
                  (bone.usingKeys.getD []).contains param = false) then
                .error "RuntimeError: sort field is not a bone in using"
              else
                let desc := cget rawFilter "orderdir" == some (Val.str "1")
                .ok { q1 with
                  orders := [(t ++ "." ++ param, desc)], hooked := true }
            else .ok q1
          | _ => .ok q1
      else .ok q
    | some _ => .ok q
    | none => .ok q

/-- `relationalBone.filterHook` (source lines 708-752): the result is the
possibly rewritten `(property, value)` filter (`none` when the filter was
consumed as an ancestor constraint) together with the query (mutated only
in the ancestor case). -/
def filterHook (bone : Bone) (name : String) (q : DBQuery) (param : String)
    (value : Val) : Except String ((Option (String × Val)) × DBQuery) :=
  if pyStartsWith param "src." || pyStartsWith param "dest."
      || pyStartsWith param "viur_" then
    .ok (some (param, value), q)
  else if pyStartsWith param (name ++ ".") then
    let refKey := cutAtSpace (pyReplace param (name ++ ".") "")
    if bone.refKeys.contains refKey = false then
      .error "RuntimeError: filter field is not in refKeys"
    else if bone.multiple then
      .ok (some (pyReplace param (name ++ ".") "dest.", value), q)
    else .ok (some (param, value), q)
  else
    if bone.multiple = false then .ok (some (param, value), q)
    else
      let srcKey := cutAtSpace param
      if srcKey = KEY_SPECIAL then
        match value with
        | .list _ => .error "RuntimeError: multiple key filters are unsupported"
        | .key kk => .ok (none, { q with anc := some kk })
        | _ => .error "TypeError: cannot convert to db.Key"
      else if bone.parentKeys.contains srcKey = false then
        .error "RuntimeError: filter field is not in parentKeys"
      else .ok (some ("src." ++ param, value), q)

/-- One ordering handed to `orderHook`: either a `(key, descending)`
tuple or a bare key string. -/
inductive OrderE where
  | tup (k : String) (d : Bool)
  | bare (k : String)
deriving DecidableEq

def OrderE.keyOf : OrderE → String
  | .tup k _ => k
  | .bare k => k

def OrderE.withKey : OrderE → String → OrderE
  | .tup _ d, k2 => .tup k2 d
  | .bare _, k2 => .bare k2

/-- `relationalBone.orderHook` (source lines 754-799). -/
def orderHook (bone : Bone) (name : String) :
    List OrderE → Except String (List OrderE)
  | [] => .ok []
  | o :: t =>
    let orderKey := o.keyOf
    if pyStartsWith orderKey "dest." || pyStartsWith orderKey "rel."
        || pyStartsWith orderKey "src." then
      match orderHook bone name t with
      | .error e => .error e
      | .ok rest => .ok (o :: rest)
    else if pyStartsWith orderKey (name ++ ".") then
      let k := pyReplace orderKey (name ++ ".") ""
      if bone.refKeys.contains k = false then
        .error "RuntimeError: sort field is not in refKeys"
      else if bone.multiple = false then
        match orderHook bone name t with
        | .error e => .error e
        | .ok rest => .ok (o :: rest)
      else
        match orderHook bone name t with
        | .error e => .error e
        | .ok rest => .ok (o.withKey ("dest." ++ k) :: rest)
    else
      if bone.multiple = false then
        match orderHook bone name t with
        | .error e => .error e
        | .ok rest => .ok (o :: rest)
      else if bone.parentKeys.contains orderKey = false then
        .error "RuntimeError: sort field is not in parentKeys"
      else
        match orderHook bone name t with
        | .error e => .error e
        | .ok rest => .ok (o.withKey ("src." ++ orderKey) :: rest)

lemma cget_upsert_same (fl : List (String × Val)) (k : String) (v : Val) :
    cget (upsert fl k v) k = some v := by
  induction fl with
  | nil => simp [upsert, cget]
  | cons p t ih =>
    by_cases hp : p.1 = k
    · simp [upsert, hp, cget]
    · simp [upsert, hp, cget, ih]

lemma cget_upsert_other (fl : List (String × Val)) (k k2 : String) (v : Val)
    (h : k2 ≠ k) : cget (upsert fl k v) k2 = cget fl k2 := by
  induction fl with
  | nil =>
    simp [upsert, cget]
    exact fun he => h he.symm
  | cons p t ih =>
    by_cases hp : p.1 = k
    · simp only [upsert, if_pos hp, cget]
      rw [if_neg (fun he => h he.symm), if_neg (by rw [hp]; exact fun he => h he.symm)]
    · simp only [upsert, if_neg hp, cget]
      by_cases hp2 : p.1 = k2
      · rw [if_pos hp2, if_pos hp2]
      · rw [if_neg hp2, if_neg hp2]
        exact ih

lemma qFilter_collection (q : DBQuery) (k : String) (v : Val) :
    (qFilter q k v).collection = q.collection := by
  unfold qFilter
  split <;> rfl

lemma qFilter_anc (q : DBQuery) (k : String) (v : Val) :
    (qFilter q k v).anc = q.anc := by
  unfold qFilter
  split <;> rfl

lemma qFilter_hooked (q : DBQuery) (k : String) (v : Val) :
    (qFilter q k v).hooked = q.hooked := by
  unfold qFilter
  split <;> rfl

lemma qFilter_isSome (q : DBQuery) (k : String) (v : Val) :
    (qFilter q k v).filters.isSome = q.filters.isSome := by
  unfold qFilter
  split
  · rfl
  · rename_i fl hfl
    rw [hfl]
    rfl

lemma fget_qFilter_same (q : DBQuery) (k : String) (v : Val)
    (h : q.filters.isSome = true) : fget (qFilter q k v) k = some v := by
  cases hfl : q.filters with
  | none => rw [hfl] at h; simp at h
  | some fl => simp [qFilter, fget, hfl, cget_upsert_same]

lemma fget_qFilter_other (q : DBQuery) (k k2 : String) (v : Val)
    (h : k2 ≠ k) : fget (qFilter q k v) k2 = fget q k2 := by
  cases hfl : q.filters with
  | none => simp [qFilter, fget, hfl]
  | some fl => simp [qFilter, fget, hfl, cget_upsert_other fl k k2 v h]

lemma qFilter_fal (q : DBQuery) (k : String) (v : Val) :
    (qFilter q k v).filtersAreList = q.filtersAreList := by
  unfold qFilter
  split <;> rfl

lemma qFilter_orders (q : DBQuery) (k : String) (v : Val) :
    (qFilter q k v).orders = q.orders := by
  unfold qFilter
  split <;> rfl

/-- Invariants preserved by a fold of conditional filter insertions under
one fixed key. -/
lemma foldqf_pres (l : List String) (q : DBQuery) (K : String) (v : Val)
    (step : DBQuery → String → DBQuery)
    (hstep : ∀ qq b, step qq b = qq ∨ step qq b = qFilter qq K v) :
    (l.foldl step q).collection = q.collection
    ∧ (l.foldl step q).anc = q.anc
    ∧ (l.foldl step q).filtersAreList = q.filtersAreList
    ∧ (l.foldl step q).hooked = q.hooked
    ∧ (l.foldl step q).orders = q.orders
    ∧ (l.foldl step q).filters.isSome = q.filters.isSome
    ∧ (∀ fk, fk ≠ K → fget (l.foldl step q) fk = fget q fk) := by
  induction l generalizing q with
  | nil => exact ⟨rfl, rfl, rfl, rfl, rfl, rfl, fun _ _ => rfl⟩
  | cons a t ih =>
    rw [List.foldl_cons]
    have hone : (step q a).collection = q.collection
        ∧ (step q a).anc = q.anc
        ∧ (step q a).filtersAreList = q.filtersAreList
        ∧ (step q a).hooked = q.hooked
        ∧ (step q a).orders = q.orders
        ∧ (step q a).filters.isSome = q.filters.isSome
        ∧ (∀ fk, fk ≠ K → fget (step q a) fk = fget q fk) := by
      cases hstep q a with
      | inl he =>
        rw [he]
        exact ⟨rfl, rfl, rfl, rfl, rfl, rfl, fun _ _ => rfl⟩
      | inr he =>
        rw [he]
        exact ⟨qFilter_collection q K v, qFilter_anc q K v, qFilter_fal q K v,
          qFilter_hooked q K v, qFilter_orders q K v, qFilter_isSome q K v,
          fun fk hfk => fget_qFilter_other q K fk v hfk⟩
    obtain ⟨i1, i2, i3, i4, i5, i6, i7⟩ := ih (step q a)
    exact ⟨i1.trans hone.1, i2.trans hone.2.1, i3.trans hone.2.2.1,
      i4.trans hone.2.2.2.1, i5.trans hone.2.2.2.2.1,
      i6.trans hone.2.2.2.2.2.1,
      fun fk hfk => (i7 fk hfk).trans (hone.2.2.2.2.2.2 fk hfk)⟩

lemma foldqf_stable (l : List String) (q : DBQuery) (K : String) (v : Val)
    (step : DBQuery → String → DBQuery)
    (hstep : ∀ qq b, step qq b = qq ∨ step qq b = qFilter qq K v)
    (hsome : q.filters.isSome = true) (hv : fget q K = some v) :
    fget (l.foldl step q) K = some v := by
  induction l generalizing q with
  | nil => exact hv
  | cons a t ih =>
    rw [List.foldl_cons]
    cases hstep q a with
    | inl he =>
      rw [he]
      exact ih q hsome hv
    | inr he =>
      rw [he]
      exact ih (qFilter q K v) (by rw [qFilter_isSome]; exact hsome)
        (fget_qFilter_same q K v hsome)

lemma foldqf_adds (l : List String) (q : DBQuery) (K : String) (v : Val)
    (step : DBQuery → String → DBQuery)
    (hstep : ∀ qq b, step qq b = qq ∨ step qq b = qFilter qq K v)
    (hsome : q.filters.isSome = true)
    (b : String) (hb : b ∈ l) (hstepb : ∀ qq, step qq b = qFilter qq K v) :
    fget (l.foldl step q) K = some v := by
  induction l generalizing q with
  | nil => exact absurd hb (by simp)
  | cons a t ih =>
    rw [List.foldl_cons]
    rw [List.mem_cons] at hb
    cases hb with
    | inl hba =>
      subst hba
      rw [hstepb q]
      exact foldqf_stable t (qFilter q K v) K v step hstep
        (by rw [qFilter_isSome]; exact hsome) (fget_qFilter_same q K v hsome)
    | inr hbt =>
      have hq1 : (step q a).filters.isSome = true := by
        cases hstep q a with
        | inl he => rw [he]; exact hsome
        | inr he => rw [he, qFilter_isSome]; exact hsome
      exact ih (step q a) hq1 hbt

lemma subBone_qFilter (pfx key : String) (v : Val) (qq : DBQuery) :
    subBoneBuildDBFilter pfx key v qq = qFilter qq (pfx ++ key ++ " =") v := rfl

lemma processOneKey_pres {bone : Bone} {name : String} {pfx : Option String}
    {rawFilter : List (String × Val)} {q : DBQuery} {myKey : String}
    {q2 : DBQuery} (h : processOneKey bone name pfx rawFilter q myKey = .ok q2) :
    q2.collection = q.collection ∧ q2.anc = q.anc
    ∧ q2.filtersAreList = q.filtersAreList ∧ q2.hooked = q.hooked
    ∧ q2.orders = q.orders ∧ q2.filters.isSome = q.filters.isSome := by
  unfold processOneKey at h
  dsimp only at h
  generalize hpfxD : (if bone.multiple = true then (pfx.getD "") ++ "dest."
      else (pfx.getD "") ++ name ++ ".dest.") = pfxD at h
  generalize hpfxR : (if bone.multiple = true then (pfx.getD "") ++ "rel."
      else (pfx.getD "") ++ name ++ ".rel.") = pfxR at h
  split at h
  · simp only [Except.ok.injEq] at h
    rw [← h]
    exact ⟨rfl, rfl, rfl, rfl, rfl, rfl⟩
  · rename_i isDest key hparse
    split at h
    · split at h
      · exact absurd h (by simp)
      · simp only [Except.ok.injEq] at h
        rw [← h]
        have hstep : ∀ (qq : DBQuery) (b : String),
            (if checkKeyOf key = b then
              subBoneBuildDBFilter pfxD key
                ((cget rawFilter myKey).getD .none_) qq
             else qq) = qq
            ∨ (if checkKeyOf key = b then
              subBoneBuildDBFilter pfxD key
                ((cget rawFilter myKey).getD .none_) qq
             else qq) = qFilter qq (pfxD ++ key ++ " =")
              ((cget rawFilter myKey).getD .none_) := by
          intro qq b
          by_cases hc : checkKeyOf key = b
          · right
            rw [if_pos hc, subBone_qFilter]
          · left
            rw [if_neg hc]
        have hp := foldqf_pres bone.refKeys q _ _ _ hstep
        exact ⟨hp.1, hp.2.1, hp.2.2.1, hp.2.2.2.1, hp.2.2.2.2.1, hp.2.2.2.2.2.1⟩
    · split at h
      · exact absurd h (by simp)
      · rename_i uks huks
        split at h
        · exact absurd h (by simp)
        · simp only [Except.ok.injEq] at h
          rw [← h]
          have hstep : ∀ (qq : DBQuery) (b : String),
              (if pyStartsWith key b then
                subBoneBuildDBFilter pfxR key
                  ((cget rawFilter myKey).getD .none_) qq
               else qq) = qq
              ∨ (if pyStartsWith key b then
                subBoneBuildDBFilter pfxR key
                  ((cget rawFilter myKey).getD .none_) qq
               else qq) = qFilter qq (pfxR ++ key ++ " =")
                ((cget rawFilter myKey).getD .none_) := by
            intro qq b
            by_cases hc : pyStartsWith key b
            · right
              rw [if_pos hc, subBone_qFilter]
            · left
              rw [if_neg hc]
          have hp := foldqf_pres uks q _ _ _ hstep
          exact ⟨hp.1, hp.2.1, hp.2.2.1, hp.2.2.2.1, hp.2.2.2.2.1, hp.2.2.2.2.2.1⟩

lemma processMyKeys_pres {bone : Bone} {name : String} {pfx : Option String}
    {rawFilter : List (String × Val)} {q : DBQuery} {keys : List String}
    {q2 : DBQuery} (h : processMyKeys bone name pfx rawFilter q keys = .ok q2) :
    q2.collection = q.collection ∧ q2.anc = q.anc
    ∧ q2.filtersAreList = q.filtersAreList ∧ q2.hooked = q.hooked
    ∧ q2.orders = q.orders ∧ q2.filters.isSome = q.filters.isSome := by
  induction keys generalizing q with
  | nil =>
    unfold processMyKeys at h
    simp only [Except.ok.injEq] at h
    rw [← h]
    exact ⟨rfl, rfl, rfl, rfl, rfl, rfl⟩
  | cons a t ih =>
    unfold processMyKeys at h
    split at h
    · exact absurd h (by simp)
    · rename_i q1 hone
      have h1 := processOneKey_pres hone
      have h2 := ih h
      exact ⟨h2.1.trans h1.1, h2.2.1.trans h1.2.1, h2.2.2.1.trans h1.2.2.1,
        h2.2.2.2.1.trans h1.2.2.2.1, h2.2.2.2.2.1.trans h1.2.2.2.2.1,
        h2.2.2.2.2.2.trans h1.2.2.2.2.2⟩

lemma rewriteQuery_simple (bone : Bone) (name kindName : String)
    (q : DBQuery) (a : DBKey)
    (hfl : q.filters = some [(KEY_SPECIAL, Val.key a)])
    (hfal : q.filtersAreList = false) (hord : q.orders = []) :
    rewriteQuery bone name kindName q = .ok
      { collection := "viur-relations",
        filters := some [("viur_src_kind =", .str kindName),
          ("viur_dest_kind =", .str bone.kind),
          ("viur_src_property", .str name)],
        filtersAreList := false, orders := [], anc := some a,
        hooked := q.hooked } := by
  unfold rewriteQuery
  rw [hfal]
  simp only [Bool.false_eq_true, if_false]
  rw [hfl, hord]
  simp [qFilter, upsert, mergeOldFilters, mergeOldOrders, KEY_SPECIAL]

lemma fget_hooked (q : DBQuery) : fget { q with hooked := true } = fget q := rfl

lemma processOneKey_bdest (bone : Bone) (pfx : Option String) (v : Val)
    (q : DBQuery) (href : bone.refKeys.contains "name" = true) :
    processOneKey bone "b" pfx [("b.dest.name", v)] q "b.dest.name" =
      .ok (bone.refKeys.foldl (fun qq bname =>
        if "name" = bname then
          subBoneBuildDBFilter
            (if bone.multiple then (pfx.getD "") ++ "dest."
             else (pfx.getD "") ++ "b" ++ ".dest.") "name" v qq
        else qq) q) := by
  unfold processOneKey
  rw [show parseTypeKey bone "b.dest.name" = some (true, "name") from by
    unfold parseTypeKey
    rw [show pysplitDot "b.dest.name" 2 = ["b", "dest", "name"] from rfl]
    simp]
  simp only []
  rw [show checkKeyOf "name" = "name" from rfl]
  rw [href]
  rw [show ((cget [("b.dest.name", v)] "b.dest.name").getD .none_) = v from rfl]
  simp


/-- C3: in `buildDBFilter`, a raw-filter key `<bone>.<field>` on a
`multiple` bone switches the query onto the `viur-relations` collection
with baseline filters pinning the source kind, destination kind and
source property, and reinterprets a `key=` filter as an ancestor
constraint; on a non-`multiple` bone no collection switch ever occurs and
the filter is delegated to the referenced sub-schema's bones against
prefixed field names on the referencing entity. -/
theorem buildDBFilter_query_rewriting :
    (∀ (bone : Bone) (kindName : String) (q : DBQuery) (a : DBKey)
        (v : Val) (q2 : DBQuery),
      bone.multiple = true →
      bone.refKeys.contains "name" = true →
      q.collection = kindName → kindName ≠ "viur-relations" →
      q.filters = some [(KEY_SPECIAL, Val.key a)] →
      q.filtersAreList = false → q.orders = [] →
      buildDBFilter bone "b" kindName q [("b.dest.name", v)] none = .ok q2 →
      q2.collection = "viur-relations"
      ∧ fget q2 "viur_src_kind =" = some (.str kindName)
      ∧ fget q2 "viur_dest_kind =" = some (.str bone.kind)
      ∧ fget q2 "viur_src_property" = some (.str "b")
      ∧ q2.anc = some a
      ∧ fget q2 "dest.name =" = some v)
    ∧ (∀ (bone : Bone) (name kindName : String) (q : DBQuery)
        (rawFilter : List (String × Val)) (pfx : Option String) (q2 : DBQuery),
      bone.multiple = false →
      buildDBFilter bone name kindName q rawFilter pfx = .ok q2 →
      q2.collection = q.collection)
    ∧ (∀ (bone : Bone) (kindName : String) (q : DBQuery)
        (fl : List (String × Val)) (v : Val) (q2 : DBQuery),
      bone.multiple = false →
      bone.refKeys.contains "name" = true →
      q.filters = some fl →
      buildDBFilter bone "b" kindName q [("b.dest.name", v)] none = .ok q2 →
      fget q2 "b.dest.name =" = some v) := by
  refine ⟨?_, ?_, ?_⟩
  · intro bone kindName q a v q2 hm href hcoll hkn hfl hfal hord hok
    unfold buildDBFilter at hok
    split at hok
    · rename_i hnone
      rw [hfl] at hnone
      cases hnone
    · rename_i fl0 heq
      rw [show ((([("b.dest.name", v)] : List (String × Val)).map Prod.fst).filter
          (fun x => pyStartsWith x ("b" ++ "."))) = ["b.dest.name"] from rfl] at hok
      have hcondT : (q.collection != "viur-relations" && bone.multiple) = true := by
        rw [hm, hcoll]
        simpa using hkn
      rw [hcondT] at hok
      simp only [List.length_cons, List.length_nil, Nat.zero_add,
        gt_iff_lt, Nat.zero_lt_one, if_true, if_pos] at hok
      rw [rewriteQuery_simple bone "b" kindName q a hfl hfal hord] at hok
      split at hok
      · rename_i e1 habs
        cases habs
      · rename_i q1 heq2
        injection heq2 with heq2
        subst heq2
        split at hok
        · exact absurd hok (by simp)
        · rename_i q2x hproc
          rw [hm] at hok
          simp only [if_pos, Except.ok.injEq] at hok
          unfold processMyKeys at hproc
          split at hproc
          · exact absurd hproc (by simp)
          · rename_i q1x honek
            injection hproc with hproc
            subst hproc
            rw [processOneKey_bdest bone none v _ href] at honek
            injection honek with honek
            simp only [hm, if_pos] at honek
            have hstep : ∀ (qq : DBQuery) (b : String),
                (if "name" = b then
                  subBoneBuildDBFilter ((none : Option String).getD "" ++ "dest.")
                    "name" v qq else qq) = qq
                ∨ (if "name" = b then
                  subBoneBuildDBFilter ((none : Option String).getD "" ++ "dest.")
                    "name" v qq else qq)
                  = qFilter qq
                    (((none : Option String).getD "" ++ "dest.") ++ "name" ++ " =") v := by
              intro qq b
              by_cases hc : "name" = b
              · right
                rw [if_pos hc]
                exact subBone_qFilter _ _ _ _
              · left
                rw [if_neg hc]
            have hpres := foldqf_pres bone.refKeys
              { collection := "viur-relations",
                filters := some [("viur_src_kind =", .str kindName),
                  ("viur_dest_kind =", .str bone.kind),
                  ("viur_src_property", .str "b")],
                filtersAreList := false, orders := [], anc := some a,
                hooked := q.hooked } _ _ _ hstep
            have hadds := foldqf_adds bone.refKeys
              { collection := "viur-relations",
                filters := some [("viur_src_kind =", .str kindName),
                  ("viur_dest_kind =", .str bone.kind),
                  ("viur_src_property", .str "b")],
                filtersAreList := false, orders := [], anc := some a,
                hooked := q.hooked } _ _ _ hstep rfl
              "name" (by simpa using href)
              (fun qq => by
                simp only [if_pos]
                exact subBone_qFilter _ _ _ _)
            rw [honek] at hpres hadds
            rw [← hok]
            refine ⟨?_, ?_, ?_, ?_, ?_, ?_⟩
            · rw [show ({ q1x with hooked := true } : DBQuery).collection
                = q1x.collection from rfl, hpres.1]
            · rw [fget_hooked, hpres.2.2.2.2.2.2 _ (by decide)]
              rfl
            · rw [fget_hooked, hpres.2.2.2.2.2.2 _ (by decide)]
              rfl
            · rw [fget_hooked, hpres.2.2.2.2.2.2 _ (by decide)]
              rfl
            · rw [show ({ q1x with hooked := true } : DBQuery).anc
                = q1x.anc from rfl, hpres.2.1]
            · rw [fget_hooked]
              exact hadds
  · intro bone name kindName q rawFilter pfx q2 hm hok
    unfold buildDBFilter at hok
    split at hok
    · simp only [Except.ok.injEq] at hok
      rw [← hok]
    · rename_i fl0 heq
      dsimp only at hok
      rw [hm, Bool.and_false] at hok
      simp only [Bool.false_eq_true, if_false] at hok
      by_cases hlen : ((rawFilter.map Prod.fst).filter
          (fun x => pyStartsWith x (name ++ "."))).length > 0
      · rw [if_pos hlen] at hok
        split at hok
        · exact absurd hok (by simp)
        · rename_i q2x hproc
          injection hok with hok
          rw [← hok]
          exact (processMyKeys_pres hproc).1
      · rw [if_neg hlen] at hok
        split at hok
        · rename_i s hs
          split at hok
          · injection hok with hok
            rw [← hok, qFilter_collection]
          · injection hok with hok
            rw [← hok]
        · exact absurd hok (by simp)
        · injection hok with hok
          rw [← hok]
  · intro bone kindName q fl v q2 hm href hfl hok
    unfold buildDBFilter at hok
    split at hok
    · rename_i hnone
      rw [hfl] at hnone
      cases hnone
    · rename_i fl0 heq
      rw [show ((([("b.dest.name", v)] : List (String × Val)).map Prod.fst).filter
          (fun x => pyStartsWith x ("b" ++ "."))) = ["b.dest.name"] from rfl] at hok
      rw [hm, Bool.and_false] at hok
      simp only [List.length_cons, List.length_nil, Nat.zero_add,
        gt_iff_lt, Nat.zero_lt_one, if_true, if_pos,
        Bool.false_eq_true, if_false] at hok
      split at hok
      · exact absurd hok (by simp)
      · rename_i q2x hproc
        injection hok with hok
        unfold processMyKeys at hproc
        split at hproc
        · exact absurd hproc (by simp)
        · rename_i q1x honek
          injection hproc with hproc
          subst hproc
          rw [processOneKey_bdest bone none v _ href] at honek
          injection honek with honek
          simp only [hm, Bool.false_eq_true, if_false] at honek
          have hstep : ∀ (qq : DBQuery) (b : String),
              (if "name" = b then
                subBoneBuildDBFilter ((none : Option String).getD "" ++ "b" ++ ".dest.")
                  "name" v qq else qq) = qq
              ∨ (if "name" = b then
                subBoneBuildDBFilter ((none : Option String).getD "" ++ "b" ++ ".dest.")
                  "name" v qq else qq)
                = qFilter qq
                  (((none : Option String).getD "" ++ "b" ++ ".dest.") ++ "name" ++ " =") v := by
            intro qq b
            by_cases hc : "name" = b
            · right
              rw [if_pos hc]
              exact subBone_qFilter _ _ _ _
            · left
              rw [if_neg hc]
          have hadds := foldqf_adds bone.refKeys q _ _ _ hstep
            (by rw [hfl]; rfl) "name" (by simpa using href)
            (fun qq => by
              simp only [if_pos]
              exact subBone_qFilter _ _ _ _)
          rw [honek] at hadds
          rw [← hok]
          exact hadds

def c3BoneM : Bone :=
  { kind := "user", refKeys := ["key", "name"], parentKeys := ["name"],
    multiple := true, usingKeys := none, updateLevel := 0,
    consistency := .Ignore, required := false }

def c3BoneS : Bone :=
  { kind := "user", refKeys := ["key", "name"], parentKeys := ["name"],
    multiple := false, usingKeys := none, updateLevel := 0,
    consistency := .Ignore, required := false }

def c3QM : DBQuery :=
  { collection := "page",
    filters := some [(KEY_SPECIAL, Val.key ⟨"page", "p1"⟩)],
    filtersAreList := false, orders := [], anc := none, hooked := false }

def c3QS : DBQuery :=
  { collection := "page", filters := some [("name =", Val.str "x")],
    filtersAreList := false, orders := [], anc := none, hooked := false }

def c3OutM : DBQuery :=
  { collection := "viur-relations",
    filters := some [("viur_src_kind =", Val.str "page"),
      ("viur_dest_kind =", Val.str "user"),
      ("viur_src_property", Val.str "b"),
      ("dest.name =", Val.int 7)],
    filtersAreList := false, orders := [], anc := some ⟨"page", "p1"⟩,
    hooked := true }

def c3OutS : DBQuery :=
  { collection := "page",
    filters := some [("name =", Val.str "x"), ("b.dest.name =", Val.int 7)],
    filtersAreList := false, orders := [], anc := none, hooked := false }

theorem buildDBFilter_query_rewriting_witness :
    (buildDBFilter c3BoneM "b" "page" c3QM [("b.dest.name", Val.int 7)] none
        = .ok c3OutM
      ∧ c3OutM.collection = "viur-relations"
      ∧ fget c3OutM "viur_src_kind =" = some (.str "page")
      ∧ fget c3OutM "viur_dest_kind =" = some (.str "user")
      ∧ fget c3OutM "viur_src_property" = some (.str "b")
      ∧ c3OutM.anc = some ⟨"page", "p1"⟩
      ∧ fget c3OutM "dest.name =" = some (Val.int 7))
    ∧ (buildDBFilter c3BoneS "b" "page" c3QS [("b.dest.name", Val.int 7)] none
        = .ok c3OutS
      ∧ c3OutS.collection = c3QS.collection
      ∧ fget c3OutS "b.dest.name =" = some (Val.int 7)) := by
  have hM := buildDBFilter_query_rewriting.1 c3BoneM "page" c3QM
    ⟨"page", "p1"⟩ (Val.int 7) c3OutM rfl rfl rfl (by decide) rfl rfl rfl rfl
  have hB := buildDBFilter_query_rewriting.2.1 c3BoneS "b" "page" c3QS
    [("b.dest.name", Val.int 7)] none c3OutS rfl rfl
  have hC := buildDBFilter_query_rewriting.2.2 c3BoneS "page" c3QS
    [("name =", Val.str "x")] (Val.int 7) c3OutS rfl rfl rfl rfl
  exact ⟨⟨rfl, hM.1, hM.2.1, hM.2.2.1, hM.2.2.2.1, hM.2.2.2.2.1,
    hM.2.2.2.2.2⟩, ⟨rfl, hB, hC⟩⟩

def c4Bone : Bone :=
  { kind := "user", refKeys := ["key", "name"], parentKeys := ["name"],
    multiple := true, usingKeys := none, updateLevel := 0,
    consistency := .Ignore, required := false }

def c4Q : DBQuery :=
  { collection := "page",
    filters := some [(KEY_SPECIAL, Val.key ⟨"page", "p1"⟩)],
    filtersAreList := false, orders := [], anc := none, hooked := false }

/-- C4, counterexample: `buildDBSort` does NOT hard-reject every orderby
value naming a field outside `refKeys`.  For the orderby value
`b.secret` — same bone `b`, field `secret` not in `refKeys` — the
three-way split of the orderby value fails, the `except` swallows it,
and the already-rewritten query is returned without error and without
any ordering: the sort constraint is silently dropped. -/
theorem buildDBSort_silent_orderby_drop :
    buildDBSort c4Bone "b" "page" c4Q [("orderby", Val.str "b.secret")] =
      .ok { collection := "viur-relations",
            filters := some [("viur_src_kind =", Val.str "page"),
              ("viur_dest_kind =", Val.str "user"),
              ("viur_src_property", Val.str "b")],
            filtersAreList := false, orders := [], anc := some ⟨"page", "p1"⟩,
            hooked := false } := by
  rfl

lemma processOneKey_secret_err (bone : Bone) (v : Val) (q1 : DBQuery)
    (href : bone.refKeys.contains "secret" = false) :
    processOneKey bone "b" none [("b.dest.secret", v)] q1 "b.dest.secret" =
      .error "RuntimeError: filter field is not in refKeys" := by
  unfold processOneKey
  rw [show parseTypeKey bone "b.dest.secret" = some (true, "secret") from by
    unfold parseTypeKey
    rw [show pysplitDot "b.dest.secret" 2 = ["b", "dest", "secret"] from rfl]
    simp]
  simp only []
  rw [show checkKeyOf "secret" = "secret" from rfl]
  rw [href]
  simp

lemma processOneKey_relsecret_none (bone : Bone) (v : Val) (q1 : DBQuery)
    (hu : bone.usingKeys = none) :
    processOneKey bone "b" none [("b.rel.secret", v)] q1 "b.rel.secret" =
      .error "RuntimeError: filter field is not a bone in using" := by
  unfold processOneKey
  rw [show parseTypeKey bone "b.rel.secret" = some (false, "secret") from by
    unfold parseTypeKey
    rw [show pysplitDot "b.rel.secret" 2 = ["b", "rel", "secret"] from rfl]
    simp]
  simp only []
  rw [hu]
  simp

lemma processOneKey_relsecret_some (bone : Bone) (uks : List String) (v : Val)
    (q1 : DBQuery) (hu : bone.usingKeys = some uks)
    (hc : uks.contains "secret" = false) :
    processOneKey bone "b" none [("b.rel.secret", v)] q1 "b.rel.secret" =
      .error "RuntimeError: filter field is not a bone in using" := by
  unfold processOneKey
  rw [show parseTypeKey bone "b.rel.secret" = some (false, "secret") from by
    unfold parseTypeKey
    rw [show pysplitDot "b.rel.secret" 2 = ["b", "rel", "secret"] from rfl]
    simp]
  simp only []
  rw [hu]
  simp only []
  rw [show checkKeyOf "secret" = "secret" from rfl]
  rw [hc]
  simp

/-- C4, amended: the rejection guarantee holds on every path that parses:
a `<bone>.dest.<field>` filter with `<field>` outside `refKeys` is
rejected by `buildDBFilter`; a parseable `<bone>.dest.<field>` orderby
outside `refKeys` is rejected by `buildDBSort`; the installed
`filterHook`/`orderHook` reject a `<bone>.<field>` key outside `refKeys`
as well as (for a multiple bone) a plain source field outside
`parentKeys`; and a `<bone>.rel.<field>` filter or orderby with
`<field>` outside the edge (`using`) schema — or on a bone with no edge
schema at all — is rejected by `buildDBFilter` and `buildDBSort`.  (The
original claim fails only on `buildDBSort`'s unparseable-orderby path,
which silently drops the constraint.) -/
theorem relational_filter_field_rejection :
    (∀ (bone : Bone) (kindName : String) (q : DBQuery)
        (fl : List (String × Val)) (v : Val),
      bone.refKeys.contains "secret" = false →
      q.filters = some fl →
      ∃ msg, buildDBFilter bone "b" kindName q
        [("b.dest.secret", v)] none = .error msg)
    ∧ (∀ (bone : Bone) (kindName : String) (q : DBQuery)
        (fl : List (String × Val)),
      bone.refKeys.contains "secret" = false →
      q.filters = some fl →
      ∃ msg, buildDBSort bone "b" kindName q
        [("orderby", Val.str "b.dest.secret")] = .error msg)
    ∧ (∀ (bone : Bone) (q : DBQuery) (v : Val),
      bone.refKeys.contains "secret" = false →
      filterHook bone "b" q "b.secret" v =
        .error "RuntimeError: filter field is not in refKeys")
    ∧ (∀ (bone : Bone) (q : DBQuery) (v : Val),
      bone.multiple = true →
      bone.parentKeys.contains "city" = false →
      filterHook bone "b" q "city" v =
        .error "RuntimeError: filter field is not in parentKeys")
    ∧ (∀ (bone : Bone),
      bone.refKeys.contains "secret" = false →
      orderHook bone "b" [OrderE.bare "b.secret"] =
        .error "RuntimeError: sort field is not in refKeys")
    ∧ (∀ (bone : Bone),
      bone.multiple = true →
      bone.parentKeys.contains "city" = false →
      orderHook bone "b" [OrderE.bare "city"] =
        .error "RuntimeError: sort field is not in parentKeys")
    ∧ (∀ (bone : Bone) (kindName : String) (q : DBQuery)
        (fl : List (String × Val)) (v : Val),
      bone.usingKeys = none →
      q.filters = some fl →
      ∃ msg, buildDBFilter bone "b" kindName q
        [("b.rel.secret", v)] none = .error msg)
    ∧ (∀ (bone : Bone) (uks : List String) (kindName : String) (q : DBQuery)
        (fl : List (String × Val)) (v : Val),
      bone.usingKeys = some uks →
      uks.contains "secret" = false →
      q.filters = some fl →
      ∃ msg, buildDBFilter bone "b" kindName q
        [("b.rel.secret", v)] none = .error msg)
    ∧ (∀ (bone : Bone) (kindName : String) (q : DBQuery)
        (fl : List (String × Val)),
      bone.usingKeys = none →
      q.filters = some fl →
      ∃ msg, buildDBSort bone "b" kindName q
        [("orderby", Val.str "b.rel.secret")] = .error msg)
    ∧ (∀ (bone : Bone) (uks : List String) (kindName : String) (q : DBQuery)
        (fl : List (String × Val)),
      bone.usingKeys = some uks →
      uks.contains "secret" = false →
      q.filters = some fl →
      ∃ msg, buildDBSort bone "b" kindName q
        [("orderby", Val.str "b.rel.secret")] = .error msg) := by
  refine ⟨?_, ?_, ?_, ?_, ?_, ?_, ?_, ?_, ?_, ?_⟩
  · intro bone kindName q fl v href hfl
    unfold buildDBFilter
    rw [hfl]
    simp only []
    rw [show ((([("b.dest.secret", v)] : List (String × Val)).map Prod.fst).filter
        (fun x => pyStartsWith x ("b" ++ "."))) = ["b.dest.secret"] from rfl]
    simp only [List.length_cons, List.length_nil, Nat.zero_add,
      gt_iff_lt, Nat.zero_lt_one, if_true, if_pos]
    cases hrw : (if (q.collection != "viur-relations" && bone.multiple) = true
        then rewriteQuery bone "b" kindName q else Except.ok q) with
    | error e =>
      exact ⟨e, rfl⟩
    | ok q1 =>
      simp only []
      have hpk : processMyKeys bone "b" none [("b.dest.secret", v)] q1
          ["b.dest.secret"] = .error "RuntimeError: filter field is not in refKeys" := by
        unfold processMyKeys
        rw [processOneKey_secret_err bone v q1 href]
      rw [hpk]
      exact ⟨_, rfl⟩
  · intro bone kindName q fl href hfl
    unfold buildDBSort
    rw [hfl]
    simp only []
    rw [show cget [("orderby", Val.str "b.dest.secret")] "orderby"
      = some (Val.str "b.dest.secret") from rfl]
    simp only []
    rw [show pyStartsWith "b.dest.secret" ("b" ++ ".") = true from rfl]
    simp only [if_pos]
    cases hrw : (if (q.collection != "viur-relations") = true
        then rewriteQuery bone "b" kindName q else Except.ok q) with
    | error e =>
      exact ⟨e, rfl⟩
    | ok q1 =>
      simp only []
      refine ⟨"RuntimeError: sort field is not in refKeys", ?_⟩
      rw [show pySplitChar "b.dest.secret" '.' = ["b", "dest", "secret"] from rfl]
      simp only []
      rw [href]
      rfl
  · intro bone q v href
    unfold filterHook
    rw [show (pyStartsWith "b.secret" "src." || pyStartsWith "b.secret" "dest."
      || pyStartsWith "b.secret" "viur_") = false from rfl]
    simp only [Bool.false_eq_true, if_false]
    rw [show pyStartsWith "b.secret" ("b" ++ ".") = true from rfl]
    simp only [if_pos]
    rw [show cutAtSpace (pyReplace "b.secret" ("b" ++ ".") "") = "secret" from rfl]
    rw [href]
    simp only [if_pos]
  · intro bone q v hm hpk
    unfold filterHook
    rw [show (pyStartsWith "city" "src." || pyStartsWith "city" "dest."
      || pyStartsWith "city" "viur_") = false from rfl]
    simp only [Bool.false_eq_true, if_false]
    rw [show pyStartsWith "city" ("b" ++ ".") = false from rfl]
    simp only [Bool.false_eq_true, if_false]
    rw [hm]
    simp only [Bool.true_eq_false, if_false]
    rw [show cutAtSpace "city" = "city" from rfl]
    rw [if_neg (show ¬("city" = KEY_SPECIAL) from by decide)]
    rw [hpk]
    simp only [if_pos]
  · intro bone href
    unfold orderHook
    simp only [OrderE.keyOf]
    rw [show (pyStartsWith "b.secret" "dest." || pyStartsWith "b.secret" "rel."
      || pyStartsWith "b.secret" "src.") = false from rfl]
    simp only [Bool.false_eq_true, if_false]
    rw [show pyStartsWith "b.secret" ("b" ++ ".") = true from rfl]
    simp only [if_pos]
    rw [show pyReplace "b.secret" ("b" ++ ".") "" = "secret" from rfl]
    rw [href]
    simp only [if_pos]
  · intro bone hm hpk
    unfold orderHook
    simp only [OrderE.keyOf]
    rw [show (pyStartsWith "city" "dest." || pyStartsWith "city" "rel."
      || pyStartsWith "city" "src.") = false from rfl]
    simp only [Bool.false_eq_true, if_false]
    rw [show pyStartsWith "city" ("b" ++ ".") = false from rfl]
    simp only [Bool.false_eq_true, if_false]
    rw [hm]
    simp only [Bool.true_eq_false, if_false]
    rw [hpk]
    simp only [if_pos]
  · intro bone kindName q fl v hu hfl
    unfold buildDBFilter
    rw [hfl]
    simp only []
    rw [show ((([("b.rel.secret", v)] : List (String × Val)).map Prod.fst).filter
        (fun x => pyStartsWith x ("b" ++ "."))) = ["b.rel.secret"] from rfl]
    simp only [List.length_cons, List.length_nil, Nat.zero_add,
      gt_iff_lt, Nat.zero_lt_one, if_true, if_pos]
    cases hrw : (if (q.collection != "viur-relations" && bone.multiple) = true
        then rewriteQuery bone "b" kindName q else Except.ok q) with
    | error e =>
      exact ⟨e, rfl⟩
    | ok q1 =>
      simp only []
      have hpk : processMyKeys bone "b" none [("b.rel.secret", v)] q1
          ["b.rel.secret"]
          = .error "RuntimeError: filter field is not a bone in using" := by
        unfold processMyKeys
        rw [processOneKey_relsecret_none bone v q1 hu]
      rw [hpk]
      exact ⟨_, rfl⟩
  · intro bone uks kindName q fl v hu hc hfl
    unfold buildDBFilter
    rw [hfl]
    simp only []
    rw [show ((([("b.rel.secret", v)] : List (String × Val)).map Prod.fst).filter
        (fun x => pyStartsWith x ("b" ++ "."))) = ["b.rel.secret"] from rfl]
    simp only [List.length_cons, List.length_nil, Nat.zero_add,
      gt_iff_lt, Nat.zero_lt_one, if_true, if_pos]
    cases hrw : (if (q.collection != "viur-relations" && bone.multiple) = true
        then rewriteQuery bone "b" kindName q else Except.ok q) with
    | error e =>
      exact ⟨e, rfl⟩
    | ok q1 =>
      simp only []
      have hpk : processMyKeys bone "b" none [("b.rel.secret", v)] q1
          ["b.rel.secret"]
          = .error "RuntimeError: filter field is not a bone in using" := by
        unfold processMyKeys
        rw [processOneKey_relsecret_some bone uks v q1 hu hc]
      rw [hpk]
      exact ⟨_, rfl⟩
  · intro bone kindName q fl hu hfl
    unfold buildDBSort
    rw [hfl]
    simp only []
    rw [show cget [("orderby", Val.str "b.rel.secret")] "orderby"
      = some (Val.str "b.rel.secret") from rfl]
    simp only []
    rw [show pyStartsWith "b.rel.secret" ("b" ++ ".") = true from rfl]
    simp only [if_pos]
    cases hrw : (if (q.collection != "viur-relations") = true
        then rewriteQuery bone "b" kindName q else Except.ok q) with
    | error e =>
      exact ⟨e, rfl⟩
    | ok q1 =>
      simp only []
      refine ⟨"RuntimeError: sort field is not a bone in using", ?_⟩
      rw [show pySplitChar "b.rel.secret" '.' = ["b", "rel", "secret"] from rfl]
      simp only []
      rw [hu]
      rfl
  · intro bone uks kindName q fl hu hc hfl
    unfold buildDBSort
    rw [hfl]
    simp only []
    rw [show cget [("orderby", Val.str "b.rel.secret")] "orderby"
      = some (Val.str "b.rel.secret") from rfl]
    simp only []
    rw [show pyStartsWith "b.rel.secret" ("b" ++ ".") = true from rfl]
    simp only [if_pos]
    cases hrw : (if (q.collection != "viur-relations") = true
        then rewriteQuery bone "b" kindName q else Except.ok q) with
    | error e =>
      exact ⟨e, rfl⟩
    | ok q1 =>
      simp only []
      refine ⟨"RuntimeError: sort field is not a bone in using", ?_⟩
      rw [show pySplitChar "b.rel.secret" '.' = ["b", "rel", "secret"] from rfl]
      simp only []
      rw [hu]
      rw [show Option.getD (some uks) ([] : List String) = uks from rfl]
      rw [hc]
      rfl

def c4BoneU : Bone :=
  { kind := "user", refKeys := ["key", "name"], parentKeys := ["key", "name"],
    multiple := true, usingKeys := some ["comment"], updateLevel := 0,
    consistency := .Ignore, required := false }

def c4QW : DBQuery :=
  { collection := "page", filters := some [("a =", Val.int 0)],
    filtersAreList := false, orders := [], anc := none, hooked := false }

theorem relational_filter_field_rejection_witness :
    c4Bone.refKeys.contains "secret" = false
    ∧ c4Bone.multiple = true
    ∧ c4Bone.parentKeys.contains "city" = false
    ∧ (∃ msg, buildDBFilter c4Bone "b" "page" c4QW
        [("b.dest.secret", Val.int 1)] none = .error msg)
    ∧ (∃ msg, buildDBSort c4Bone "b" "page" c4QW
        [("orderby", Val.str "b.dest.secret")] = .error msg)
    ∧ filterHook c4Bone "b" c4QW "b.secret" (Val.int 1) =
        .error "RuntimeError: filter field is not in refKeys"
    ∧ filterHook c4Bone "b" c4QW "city" (Val.int 1) =
        .error "RuntimeError: filter field is not in parentKeys"
    ∧ orderHook c4Bone "b" [OrderE.bare "b.secret"] =
        .error "RuntimeError: sort field is not in refKeys"
    ∧ orderHook c4Bone "b" [OrderE.bare "city"] =
        .error "RuntimeError: sort field is not in parentKeys"
    ∧ c4Bone.usingKeys = none
    ∧ c4BoneU.usingKeys = some ["comment"]
    ∧ (["comment"] : List String).contains "secret" = false
    ∧ (∃ msg, buildDBFilter c4Bone "b" "page" c4QW
        [("b.rel.secret", Val.int 1)] none = .error msg)
    ∧ (∃ msg, buildDBFilter c4BoneU "b" "page" c4QW
        [("b.rel.secret", Val.int 1)] none = .error msg)
    ∧ (∃ msg, buildDBSort c4Bone "b" "page" c4QW
        [("orderby", Val.str "b.rel.secret")] = .error msg)
    ∧ (∃ msg, buildDBSort c4BoneU "b" "page" c4QW
        [("orderby", Val.str "b.rel.secret")] = .error msg) := by
  refine ⟨by decide, rfl, by decide, ?_, ?_, ?_, ?_, ?_, ?_, rfl, rfl, by decide,
    ?_, ?_, ?_, ?_⟩
  · exact relational_filter_field_rejection.1 c4Bone "page" c4QW
      [("a =", Val.int 0)] (Val.int 1) (by decide) rfl
  · exact relational_filter_field_rejection.2.1 c4Bone "page" c4QW
      [("a =", Val.int 0)] (by decide) rfl
  · exact relational_filter_field_rejection.2.2.1 c4Bone c4QW (Val.int 1)
      (by decide)
  · exact relational_filter_field_rejection.2.2.2.1 c4Bone c4QW (Val.int 1)
      rfl (by decide)
  · exact relational_filter_field_rejection.2.2.2.2.1 c4Bone (by decide)
  · exact relational_filter_field_rejection.2.2.2.2.2.1 c4Bone rfl (by decide)
  · exact relational_filter_field_rejection.2.2.2.2.2.2.1 c4Bone "page" c4QW
      [("a =", Val.int 0)] (Val.int 1) rfl rfl
  · exact relational_filter_field_rejection.2.2.2.2.2.2.2.1 c4BoneU ["comment"]
      "page" c4QW [("a =", Val.int 0)] (Val.int 1) rfl (by decide) rfl
  · exact relational_filter_field_rejection.2.2.2.2.2.2.2.2.1 c4Bone "page" c4QW
      [("a =", Val.int 0)] rfl rfl
  · exact relational_filter_field_rejection.2.2.2.2.2.2.2.2.2 c4BoneU ["comment"]
      "page" c4QW [("a =", Val.int 0)] rfl (by decide) rfl

/-- Severity of a `ReadFromClientError` (the three severities this module
produces). -/
inductive RFCSeverity where
  | NotSet
  | Invalid
  | Empty
deriving DecidableEq

/-- `ReadFromClientError(severity, fieldPath, errorMessage)`. -/
structure RFCError where
  severity : RFCSeverity
  fieldPath : String
  errorMessage : String
deriving DecidableEq

/-- The value returned by `fromClient`: `None` on success, a list of
`ReadFromClientError`, or the bare string `"No value selected!"`. -/
inductive FCRes where
  | ok : FCRes
  | errs (es : List RFCError) : FCRes
  | strErr (s : String) : FCRes
deriving DecidableEq

/-- Decimal digits of a natural number (own fuel-based rendering; the
first argument is the fuel). -/
def natToStrAux : Nat → Nat → List Char
  | 0, _ => []
  | fuel + 1, n =>
    if n < 10 then [Char.ofNat (48 + n)]
    else natToStrAux fuel (n / 10) ++ [Char.ofNat (48 + n % 10)]

/-- Python `str(n)` for a natural index. -/
def natToStr (n : Nat) : String :=
  String.mk (natToStrAux (n + 1) n)

/-- Merging a repeated client key into the per-index dict
(source lines 423-429): an existing scalar becomes a two-element list, an
existing list is appended to. -/
def tmpMergeVal (old v : Val) : Val :=
  match old with
  | .list xs => .list (xs ++ [v])
  | o => .list [o, v]

/-- `tmpRes[idx][bname] = v` with the merge semantics above. -/
def cacheAdd (c : Cache) (k : String) (v : Val) : Cache :=
  if (cget c k).isSome then
    c.map (fun p => if p.1 = k then (k, tmpMergeVal p.2 v) else p)
  else c ++ [(k, v)]

/-- `if not idx in tmpRes: tmpRes[idx] = {}` followed by the `bname`
assignment (insertion order preserved, as in a Python dict). -/
def tmpResAdd (t : List (Int × Cache)) (idx : Int) (k : String) (v : Val) :
    List (Int × Cache) :=
  if t.any (fun p => p.1 = idx) then
    t.map (fun p => if p.1 = idx then (idx, cacheAdd p.2 k v) else p)
  else t ++ [(idx, cacheAdd [] k v)]

/-- The parse loop of `fromClient` (source lines 396-428): distribute the
client's `<name>.<idx>.<bname>` keys into the per-index dicts `tmpRes`.
The stripping of the matched key prefix (`k.replace(prefix, "", 1)`)
drops the leading prefix, which is equal to the first-occurrence
replacement because the branch guarantees the key starts with it. -/
def parseData (bone : Bone) (name : String) :
    List (String × Val) → List (Int × Cache) → List (Int × Cache)
  | [], acc => acc
  | (k, v) :: rest, acc =>
    let acc' :=
      if pyStartsWith k (name ++ ".") || k == name then
        let k1 := if k == name then ""
          else String.mk (k.data.drop (name ++ ".").data.length)
        if pyContainsChar k1 '.' then
          match pysplitDot k1 1 with
          | [idxs, bn] =>
            match pyToInt idxs with
            | none => acc
            | some idx => tmpResAdd acc idx bn v
          | _ => acc
        else if pyIsDigit k1 && bone.usingKeys.isNone then
          match pyToInt k1 with
          | some idx => tmpResAdd acc idx "key" v
          | none => acc
        else if bone.usingKeys.isNone && !bone.multiple then
          tmpResAdd acc 0 "key" v
        else acc
      else acc
    parseData bone name rest acc'

/-- Stable insertion into an index-sorted list (a later entry with an
equal index goes after the earlier one, like Python's stable sort). -/
def insSorted (p : Int × Cache) : List (Int × Cache) → List (Int × Cache)
  | [] => [p]
  | q :: t => if q.1 ≤ p.1 then q :: insSorted p t else p :: q :: t

/-- `tmpList.sort(key=lambda k: k[0])`. -/
def sortByIdx (l : List (Int × Cache)) : List (Int × Cache) :=
  l.foldl (fun acc p => insSorted p acc) []

/-- Modelled from the spec: `db.keyHelper(value, targetKind)` — a
`db.Key` passes through, a string names an entity of the target kind,
anything else raises. -/
def keyHelper (v : Val) (kind : String) : Option DBKey :=
  match v with
  | .key k => some k
  | .str s => some ⟨kind, s⟩
  | _ => none

/-- The identity a relation value points at:
`value["dest"]["key"]` decoded as a datastore key. -/
def destKeyOf (rv : RelVal) : Option DBKey :=
  decodeKey (cget rv.dest "key")

/-- The fallback lookup inside the `except` handler (source lines
450-461): search the previous value(s) for an entry whose `dest.key`
equals the submitted key; for a list every match re-assigns, so the last
one wins. -/
def backupFor (oldValues : Option BoneVal) (v : Val) : Option Cache :=
  match oldValues with
  | some (.single rv) => if cget rv.dest "key" = some v then some rv.dest else none
  | some (.list rvs) =>
    (rvs.reverse.find? (fun rv => cget rv.dest "key" = some v)).map (fun rv => rv.dest)
  | _ => none

/-- The per-candidate resolution loop of `fromClient` (source lines
437-508), recursing over the candidate `(submitted key value, reltmp)`
pairs and threading the kept entries and collected errors.  `ok none`
models the early `return [Invalid "Invalid entry selected"]` of the
non-multiple unresolvable case; `error` models an uncaught exception:
`db.keyHelper` raising outside the `try`, or the freshly-resolved
kind-mismatch branch, whose logging call (source line 475) evaluates
`entry.key().kind` — calling the entity's `key` attribute (an attribute
everywhere else in the file: lines 291, 303, 472, 486) — and so raises
TypeError before the `errors.append` on line 476 runs.  The `fieldPath`
index of a
sub-skeleton error (`tmpList.index(r)`) is the number of entries kept so
far, since earlier failing entries have been removed from the list and
earlier kept entries no longer compare equal to the current one. -/
def fcLoop (bone : Bone) (db : DB) (name : String)
    (oldValues : Option BoneVal)
    (usingFC : Cache → (List RFCError × Cache)) :
    List RelVal → List RFCError → List (Val × Cache) →
    Except String (Option (List RelVal × List RFCError))
  | kept, errors, [] => .ok (some (kept, errors))
  | kept, errors, (v, reltmp) :: rest =>
    let freshCont := fun (kk : DBKey) (e : DEntity) =>
      let dest1 := refSkelUnserialize bone.refKeys
        ⟨some kk, projectPred (refFieldMember bone.refKeys) e.props⟩
      match bone.usingKeys with
      | none => fcLoop bone db name oldValues usingFC
          (kept ++ [⟨dest1, none⟩]) errors rest
      | some _ =>
        let (es, rc) := usingFC reltmp
        fcLoop bone db name oldValues usingFC (kept ++ [⟨dest1, some rc⟩])
          (errors ++ es.map (fun er =>
            ⟨er.severity, name ++ "." ++ natToStr kept.length ++ "." ++ er.fieldPath,
              er.errorMessage⟩)) rest
    let backupCont := fun () =>
      match backupFor oldValues v with
      | none =>
        if bone.multiple then fcLoop bone db name oldValues usingFC kept errors rest
        else .ok none
      | some dc =>
        let se := refSkelSerialize bone.refKeys dc
        if se.props = [] then
          fcLoop bone db name oldValues usingFC kept errors rest
        else
          match keyHelper v bone.kind with
          | none => .error "ValueError: unusable key"
          | some kk =>
            let dest1 := refSkelUnserialize bone.refKeys
              ⟨some kk, projectPred (refFieldMember bone.refKeys) se.props⟩
            match bone.usingKeys with
            | none => fcLoop bone db name oldValues usingFC
                (kept ++ [⟨dest1, none⟩]) errors rest
            | some _ =>
              let (es, rc) := usingFC reltmp
              fcLoop bone db name oldValues usingFC (kept ++ [⟨dest1, some rc⟩])
                (errors ++ es.map (fun er =>
                  ⟨er.severity, name ++ "." ++ natToStr kept.length ++ "." ++ er.fieldPath,
                    er.errorMessage⟩)) rest
    match keyHelper v bone.kind with
    | none => backupCont ()
    | some kk =>
      match dbGet db kk with
      | none => backupCont ()
      | some e =>
        if e.props = [] then backupCont ()
        else if e.key.kind = bone.kind then freshCont kk e
        else .error "TypeError: 'Key' object is not callable"

/-- The entry-level custom-invalid pass of the `multiple` branch (source
lines 510-521): failing entries are reported with their index in the
final list and left out of `cleanList`. -/
def cleanPass (isInvalid : Option RelVal → Option String) (name : String) :
    Nat → List RelVal → (List RelVal × List RFCError)
  | _, [] => ([], [])
  | n, item :: t =>
    let (cl, es) := cleanPass isInvalid name (n + 1) t
    match isInvalid (some item) with
    | some err => (cl, ⟨.Invalid, name ++ "." ++ natToStr n, err⟩ :: es)
    | none => (item :: cl, es)

/-- The post-processing of the `multiple` branch (source lines 509-526):
report the invalid entries and, when nothing clean remains, an Empty
error — but persist the unfiltered `tmpList`. -/
def multiplePost (isInvalid : Option RelVal → Option String) (name : String)
    (vc1 : ValuesCache) (errors : List RFCError) (kept : List RelVal) :
    FCRes × ValuesCache :=
  let (cleanList, errors2) := cleanPass isInvalid name 0 kept
  let errors3 := errors ++ errors2 ++
    (if cleanList.isEmpty then [⟨.Empty, name, "No value selected"⟩] else [])
  (if errors3.isEmpty then .ok else .errs errors3, vcSet vc1 name (.list kept))

/-- The post-processing of the non-multiple branch (source lines
527-539): an entry-level invalid verdict silently keeps the `[]` written
at entry; otherwise the value (or `None` plus an Empty error) is
stored. -/
def singlePost (isInvalid : Option RelVal → Option String) (name : String)
    (vc1 : ValuesCache) (errors : List RFCError) (kept : List RelVal) :
    FCRes × ValuesCache :=
  match kept.head? with
  | some v0 =>
    match isInvalid (some v0) with
    | none =>
      ((if errors.isEmpty then .ok else .errs errors), vcSet vc1 name (.single v0))
    | some _ => ((if errors.isEmpty then .ok else .errs errors), vc1)
  | none =>
    match isInvalid none with
    | none =>
      (.errs (errors ++ [⟨.Empty, name, "No value selected"⟩]), vcSet vc1 name .none_)
    | some _ => ((if errors.isEmpty then .ok else .errs errors), vc1)

/-- `relationalBone.fromClient` (source lines 371-541).  The datastore,
the entry-level `isInvalid` check (overridable in subclasses; the base
implementation returns `False`, i.e. `none`) and the using-skeleton's
`fromClient` (external, spec-modelled) are passed explicitly.  The result
pairs the returned value with the values cache after the call; `error`
models an uncaught exception. -/
def fromClient (bone : Bone) (db : DB)
    (isInvalid : Option RelVal → Option String)
    (usingFC : Cache → (List RFCError × Cache))
    (vc : ValuesCache) (name : String) (data : List (String × Val)) :
    Except String (FCRes × ValuesCache) :=
  if !(data.any (fun p => p.1 == name))
      && !(data.any (fun p => pyStartsWith p.1 (name ++ "."))) then
    .ok (.errs [⟨.NotSet, name, "Field not submitted"⟩], vc)
  else
    let oldValues := vcGet vc name
    let vc1 := vcSet vc name (.list [])
    let tmpPairs := sortByIdx ((parseData bone name data []).filter
      (fun p => (cget p.2 "key").isSome))
    let tmpList := tmpPairs.map (fun p => ((cget p.2 "key").getD .none_, p.2))
    if tmpList.isEmpty && bone.required then
      .ok (.strErr "No value selected!", vc1)
    else
      match fcLoop bone db name oldValues usingFC [] [] tmpList with
      | .error e => .error e
      | .ok none => .ok (.errs [⟨.Invalid, name, "Invalid entry selected"⟩], vc1)
      | .ok (some (kept, errors)) =>
        if bone.multiple then .ok (multiplePost isInvalid name vc1 errors kept)
        else .ok (singlePost isInvalid name vc1 errors kept)

def c2Bone : Bone :=
  { kind := "user", refKeys := ["key", "name"], parentKeys := ["key", "name"],
    multiple := false, usingKeys := none, updateLevel := 0,
    consistency := .Ignore, required := false }

def c2OldVal : BoneVal :=
  .single ⟨[("key", Val.key ⟨"user", "old"⟩), ("name", Val.str "Old")], none⟩

/-- C2: on a non-multiple bone, submitting a key that resolves against
neither the datastore nor the fallback snapshot makes `fromClient` return
exactly one Invalid error — but the stored value is NOT left unchanged:
`valuesCache[name]` was overwritten with `[]` on entry (source line 392)
and the early return leaves that `[]` in place, clobbering the previous
single value. -/
theorem fromClient_unresolvable_clears_stored_value :
    fromClient c2Bone [] (fun _ => none) (fun c => ([], c))
      [("b", c2OldVal)] "b" [("b", Val.key ⟨"user", "new"⟩)]
    = .ok (.errs [⟨.Invalid, "b", "Invalid entry selected"⟩],
        [("b", BoneVal.list [])]) := by
  rfl

def c8Bone : Bone :=
  { kind := "user", refKeys := ["key", "name"], parentKeys := ["key", "name"],
    multiple := true, usingKeys := none, updateLevel := 0,
    consistency := .Ignore, required := false }

def c8DB : DB :=
  [⟨⟨"user", "g1"⟩, [("name", Val.str "Good")], none⟩,
   ⟨⟨"user", "b1"⟩, [("name", Val.str "Bad")], none⟩]

/-- An entry-level custom-invalid check rejecting entries named `Bad`
(the base implementation accepts everything; subclasses override it). -/
def c8Inv (ov : Option RelVal) : Option String :=
  match ov with
  | some rv => if cget rv.dest "name" = some (.str "Bad") then some "bad entry" else none
  | none => none

/-- C8, counterexample: an entry failing the entry-level `isInvalid`
check is reported as an Invalid error but NOT filtered out of the
persisted list — `valuesCache[name] = tmpList` (source line 526) stores
the unfiltered list, so the `Bad` entry is persisted alongside the good
one. -/
theorem fromClient_persists_unfiltered_list :
    fromClient c8Bone c8DB c8Inv (fun c => ([], c)) [("b", BoneVal.none_)] "b"
      [("b.0.key", Val.key ⟨"user", "g1"⟩), ("b.1.key", Val.key ⟨"user", "b1"⟩)]
    = .ok (.errs [⟨.Invalid, "b.1", "bad entry"⟩],
        [("b", BoneVal.list
          [⟨[("key", Val.key ⟨"user", "g1"⟩), ("name", Val.str "Good")], none⟩,
           ⟨[("key", Val.key ⟨"user", "b1"⟩), ("name", Val.str "Bad")], none⟩])]) := by
  rfl

lemma cleanPass_fst (isInv : Option RelVal → Option String) (name : String) :
    ∀ (kept : List RelVal) (n : Nat),
      (cleanPass isInv name n kept).1 =
        kept.filter (fun it => (isInv (some it)).isNone) := by
  intro kept
  induction kept with
  | nil => intro n; rfl
  | cons it t ih =>
    intro n
    unfold cleanPass
    cases hcp : cleanPass isInv name (n + 1) t with
    | mk cl es =>
      cases hinv : isInv (some it) with
      | some msg =>
        simp only [List.filter_cons, hinv, Option.isNone_some, Bool.false_eq_true,
          if_false]
        have := ih (n + 1)
        rw [hcp] at this
        exact this
      | none =>
        simp only [List.filter_cons, hinv, Option.isNone_none, if_true, if_pos]
        have := ih (n + 1)
        rw [hcp] at this
        rw [← this]

lemma cleanPass_snd (isInv : Option RelVal → Option String) (name : String) :
    ∀ (kept : List RelVal) (n : Nat),
      (cleanPass isInv name n kept).2 =
        (List.enumFrom n kept).filterMap (fun p => (isInv (some p.2)).map
          (fun msg => ⟨.Invalid, name ++ "." ++ natToStr p.1, msg⟩)) := by
  intro kept
  induction kept with
  | nil => intro n; rfl
  | cons it t ih =>
    intro n
    unfold cleanPass
    cases hcp : cleanPass isInv name (n + 1) t with
    | mk cl es =>
      cases hinv : isInv (some it) with
      | some msg =>
        simp only [List.enumFrom_cons, List.filterMap_cons, hinv]
        have := ih (n + 1)
        rw [hcp] at this
        rw [← this]
        rfl
      | none =>
        simp only [List.enumFrom_cons, List.filterMap_cons, hinv]
        have := ih (n + 1)
        rw [hcp] at this
        rw [← this]
        rfl

/-- C8, amended: in the multiple branch, the entries failing `isInvalid`
are reported as Invalid errors carrying their list index and are left out
of the clean list; when nothing clean remains an Empty error is reported;
but the value persisted into the cache is the full unfiltered candidate
list. -/
theorem fromClient_multiple_error_filtering :
    ∀ (isInv : Option RelVal → Option String) (name : String)
      (vc1 : ValuesCache) (errors : List RFCError) (kept : List RelVal) (n : Nat),
      (multiplePost isInv name vc1 errors kept).2 = vcSet vc1 name (.list kept)
      ∧ (cleanPass isInv name n kept).1 =
          kept.filter (fun it => (isInv (some it)).isNone)
      ∧ (cleanPass isInv name n kept).2 =
          (List.enumFrom n kept).filterMap (fun p => (isInv (some p.2)).map
            (fun msg => ⟨.Invalid, name ++ "." ++ natToStr p.1, msg⟩))
      ∧ (kept.filter (fun it => (isInv (some it)).isNone) = [] →
          (multiplePost isInv name vc1 errors kept).1 =
            .errs (errors ++ (cleanPass isInv name 0 kept).2 ++
              [⟨.Empty, name, "No value selected"⟩])) := by
  intro isInv name vc1 errors kept n
  refine ⟨?_, cleanPass_fst isInv name kept n, cleanPass_snd isInv name kept n, ?_⟩
  · unfold multiplePost
    cases hcp : cleanPass isInv name 0 kept with
    | mk cl es => rfl
  · intro hemp
    unfold multiplePost
    cases hcp : cleanPass isInv name 0 kept with
    | mk cl es =>
      have hcl : cl = [] := by
        have := cleanPass_fst isInv name kept 0
        rw [hcp] at this
        rw [← hemp, ← this]
      subst hcl
      simp only [List.isEmpty_nil, if_true, if_pos]
      have hne : (errors ++ es ++
          [(⟨.Empty, name, "No value selected"⟩ : RFCError)]).isEmpty = false := by
        simp
      rw [hne]
      rfl

def c8WVal : RelVal := ⟨[("key", Val.key ⟨"user", "u1"⟩)], none⟩

theorem fromClient_multiple_error_filtering_witness :
    (multiplePost (fun _ => some "x") "b" [("b", BoneVal.list [])] [] [c8WVal]).2
      = vcSet [("b", BoneVal.list [])] "b" (.list [c8WVal])
    ∧ (cleanPass (fun _ => some "x") "b" 0 [c8WVal]).1 =
        ([c8WVal].filter (fun it =>
          ((fun (_ : Option RelVal) => some "x") (some it)).isNone))
    ∧ ([c8WVal].filter (fun it =>
        ((fun (_ : Option RelVal) => some "x") (some it)).isNone) = [])
    ∧ (multiplePost (fun _ => some "x") "b" [("b", BoneVal.list [])] [] [c8WVal]).1
      = .errs ([] ++ (cleanPass (fun _ => some "x") "b" 0 [c8WVal]).2 ++
          [⟨.Empty, "b", "No value selected"⟩]) := by
  have h := fromClient_multiple_error_filtering (fun _ => some "x") "b"
    [("b", BoneVal.list [])] [] [c8WVal] 0
  exact ⟨h.1, h.2.1, rfl, h.2.2.2 rfl⟩

def c9Bone : Bone :=
  { kind := "page", refKeys := ["key", "name"], parentKeys := ["key", "name"],
    multiple := true, usingKeys := none, updateLevel := 0,
    consistency := .Ignore, required := false }

def c9OldList : BoneVal :=
  .list [⟨[("key", Val.key ⟨"user", "u1"⟩), ("name", Val.str "Bob")], none⟩]

/-- C9, counterexample: the kind check is skipped for entries recovered
from the fallback snapshot (`not isEntryFromBackup and ...`, source line
471-472).  A backup-recovered entry whose stored key has kind `user`
passes through a bone declared with kind `page` — it is kept in the
result and no Invalid error is recorded. -/
theorem fromClient_backup_kind_unchecked :
    c9Bone.kind = "page"
    ∧ fromClient c9Bone [] (fun _ => none) (fun c => ([], c))
        [("b", c9OldList)] "b" [("b.0.key", Val.key ⟨"user", "u1"⟩)]
      = .ok (.ok, [("b", BoneVal.list
          [⟨[("key", Val.key ⟨"user", "u1"⟩), ("name", Val.str "Bob")], none⟩])]) := by
  exact ⟨rfl, rfl⟩

/-- C9: on the freshly-resolved path a kind mismatch does not drop the
candidate and record an Invalid error as the claim states: the logging
call on source line 475 evaluates `entry.key().kind`, calling the
entity's `key` attribute (used as an attribute at lines 291, 303, 472
and 486), so `fromClient` raises an uncaught TypeError before the
`errors.append` on line 476 can run. -/
theorem fromClient_fresh_kind_mismatch :
    ∀ (bone : Bone) (db : DB) (vc : ValuesCache)
      (isInv : Option RelVal → Option String)
      (uFC : Cache → (List RFCError × Cache)) (k : DBKey) (e : DEntity),
      dbGet db k = some e → e.props ≠ [] → e.key.kind ≠ bone.kind →
      fromClient bone db isInv uFC vc "b" [("b.0.key", Val.key k)]
        = .error "TypeError: 'Key' object is not callable" := by
  intro bone db vc isInv uFC k e hk hp hkind
  have h1 : fromClient bone db isInv uFC vc "b" [("b.0.key", Val.key k)] =
      (match fcLoop bone db "b" (vcGet vc "b") uFC [] []
          [(Val.key k, [("key", Val.key k)])] with
       | .error e => .error e
       | .ok none => .ok (.errs [⟨.Invalid, "b", "Invalid entry selected"⟩],
           vcSet vc "b" (.list []))
       | .ok (some (kept, errors)) =>
         if bone.multiple then
           .ok (multiplePost isInv "b" (vcSet vc "b" (.list [])) errors kept)
         else .ok (singlePost isInv "b" (vcSet vc "b" (.list [])) errors kept)) := rfl
  have h2 : fcLoop bone db "b" (vcGet vc "b") uFC [] []
      [(Val.key k, [("key", Val.key k)])] =
      .error "TypeError: 'Key' object is not callable" := by
    unfold fcLoop
    rw [show keyHelper (Val.key k) bone.kind = some k from rfl]
    simp only []
    rw [hk]
    simp only []
    rw [if_neg hp]
    rw [if_neg hkind]
  rw [h1, h2]

def c9DB : DB := [⟨⟨"user", "u1"⟩, [("name", Val.str "Bob")], none⟩]

theorem fromClient_fresh_kind_mismatch_witness :
    dbGet c9DB ⟨"user", "u1"⟩ =
      some ⟨⟨"user", "u1"⟩, [("name", Val.str "Bob")], none⟩
    ∧ fromClient c9Bone c9DB (fun _ => none) (fun c => ([], c))
        [("b", BoneVal.none_)] "b" [("b.0.key", Val.key ⟨"user", "u1"⟩)]
      = .error "TypeError: 'Key' object is not callable" := by
  exact ⟨rfl, fromClient_fresh_kind_mismatch c9Bone c9DB [("b", BoneVal.none_)]
    (fun _ => none) (fun c => ([], c)) ⟨"user", "u1"⟩
    ⟨⟨"user", "u1"⟩, [("name", Val.str "Bob")], none⟩ rfl (by decide) (by decide)⟩

/-- The source-entity snapshot written into an index row
(`parentValues`, source lines 289-292): the source entity's key plus its
`parentKeys` properties. -/
structure SrcSnap where
  key : DBKey
  props : Cache
deriving DecidableEq

/-- One `viur-relations` index row (a datastore entity).  `rid` is the
row's own datastore key; `dest = none` models a row whose `dest`
property is missing or unreadable (reading it raises, making the row
corrupt). -/
structure Row where
  rid : Nat
  src_kind : String
  dest_kind : String
  src_prop : String
  src : SrcSnap
  dest : Option SerEnt
  rel : Option Cache
  tag : Nat
  updateLevel : Nat
  consistency : Nat
  foreignKeys : List String
deriving DecidableEq

/-- The relation-index collection plus a fresh-key counter for newly
allocated rows. -/
structure IndexState where
  rows : List Row
  next : Nat
deriving DecidableEq

/-- The `values` normalization at the top of `postSavedHandler` (source
lines 282-287): `None`/falsy becomes `[]`, a single dict a one-element
list. -/
def bvValues : BoneVal → List RelVal
  | .none_ => []
  | .single rv => [rv]
  | .list rvs => rvs

/-- `parentValues` (source lines 289-292). -/
def parentValuesOf (bone : Bone) (srcEntity : SrcSnap) : SrcSnap :=
  { key := srcEntity.key,
    props := bone.parentKeys.map
      (fun bk => (bk, (cget srcEntity.props bk).getD .none_)) }

/-- The query filter of `postSavedHandler` (source lines 295-299):
source kind, destination kind, source property and source-entity key
(`src.__key__`). -/
def rowMatches (r : Row) (kindName destKind boneName : String)
    (key : DBKey) : Bool :=
  r.src_kind == kindName && r.dest_kind == destKind
    && r.src_prop == boneName && r.src.key == key

/-- The update of one existing index row from the matching bone value
(source lines 309-329). -/
def updateRow (bone : Bone) (pv : SrcSnap) (now : Nat) (r : Row)
    (data : RelVal) : Row :=
  { r with
    dest := some (refSkelSerialize bone.refKeys data.dest),
    src := pv,
    rel := match bone.usingKeys with
      | none => r.rel
      | some uks => some (usingSerialize uks (data.rel.getD [])),
    tag := now,
    updateLevel := bone.updateLevel,
    consistency := bone.consistency.value,
    foreignKeys := bone.refKeys }

/-- The row-reconciliation loop of `postSavedHandler` (source lines
301-330): a non-matching row is untouched; a matching corrupt row or one
whose destination no longer appears in `values` is deleted; otherwise the
row is rewritten from the first matching value, which is then removed
from `values`. -/
def recon (bone : Bone) (kindName boneName : String) (key : DBKey)
    (pv : SrcSnap) (now : Nat) :
    List Row → List RelVal → (List Row × List RelVal)
  | [], vs => ([], vs)
  | r :: t, vs =>
    if rowMatches r kindName bone.kind boneName key then
      match r.dest with
      | none => recon bone kindName boneName key pv now t vs
      | some d =>
        match vs.find? (fun x => destKeyOf x == d.key) with
        | none => recon bone kindName boneName key pv now t vs
        | some data =>
          (updateRow bone pv now r data
              :: (recon bone kindName boneName key pv now t (vs.erase data)).1,
            (recon bone kindName boneName key pv now t (vs.erase data)).2)
    else
      (r :: (recon bone kindName boneName key pv now t vs).1,
        (recon bone kindName boneName key pv now t vs).2)

/-- A freshly allocated index row for a value with no existing row
(source lines 333-359). -/
def mkNewRow (bone : Bone) (kindName boneName : String) (pv : SrcSnap)
    (now : Nat) (rid : Nat) (val : RelVal) : Row :=
  { rid := rid, src_kind := kindName, dest_kind := bone.kind,
    src_prop := boneName, src := pv,
    dest := some (refSkelSerialize bone.refKeys val.dest),
    rel := match bone.usingKeys with
      | none => none
      | some uks => some (usingSerialize uks (val.rel.getD [])),
    tag := now, updateLevel := bone.updateLevel,
    consistency := bone.consistency.value, foreignKeys := bone.refKeys }

/-- The add-new-relations loop (source lines 332-359), allocating row
keys from the counter. -/
def newRowsFrom (bone : Bone) (kindName boneName : String) (pv : SrcSnap)
    (now : Nat) : Nat → List RelVal → List Row
  | _, [] => []
  | nxt, v :: vs =>
    mkNewRow bone kindName boneName pv now nxt v
      :: newRowsFrom bone kindName boneName pv now (nxt + 1) vs

/-- `relationalBone.postSavedHandler` (source lines 281-359). -/
def postSavedHandler (bone : Bone) (kindName boneName : String)
    (key : DBKey) (bv : BoneVal) (srcEntity : SrcSnap) (now : Nat)
    (st : IndexState) : IndexState :=
  let values := bvValues bv
  let pv := parentValuesOf bone srcEntity
  let rows1 := (recon bone kindName boneName key pv now st.rows values).1
  let leftover := (recon bone kindName boneName key pv now st.rows values).2
  ⟨rows1 ++ newRowsFrom bone kindName boneName pv now st.next leftover,
    st.next + leftover.length⟩

/-- `relationalBone.postDeletedHandler` (source lines 361-367): delete
every index row matching source kind, destination kind, source property
and `src.key = <deleted entity key>` (the `key` property of the embedded
source snapshot). -/
def postDeletedHandler (bone : Bone) (kindName boneName : String)
    (key : DBKey) (st : IndexState) : IndexState :=
  { st with rows := st.rows.filter (fun r =>
      !(r.src_kind == kindName && r.dest_kind == bone.kind
        && r.src_prop == boneName
        && cget r.src.props "key" == some (Val.key key))) }

lemma updateRow_idem (bone : Bone) (pv : SrcSnap) (now : Nat) (r : Row)
    (data : RelVal) :
    updateRow bone pv now (updateRow bone pv now r data) data
      = updateRow bone pv now r data := by
  unfold updateRow
  cases hu : bone.usingKeys <;> rfl

lemma updateRow_mkNew (bone : Bone) (kn bn : String) (pv : SrcSnap)
    (now nxt : Nat) (v : RelVal) :
    updateRow bone pv now (mkNewRow bone kn bn pv now nxt v) v
      = mkNewRow bone kn bn pv now nxt v := by
  unfold updateRow mkNewRow
  cases hu : bone.usingKeys <;> rfl

lemma rowMatches_updateRow (bone : Bone) (pv : SrcSnap) (now : Nat)
    (r : Row) (data : RelVal) {kn bn : String} {key : DBKey}
    (hm : rowMatches r kn bone.kind bn key = true) (hpk : pv.key = key) :
    rowMatches (updateRow bone pv now r data) kn bone.kind bn key = true := by
  unfold rowMatches at hm
  unfold rowMatches updateRow
  simp only [Bool.and_eq_true] at hm
  obtain ⟨⟨⟨h1, h2⟩, h3⟩, h4⟩ := hm
  simp [h1, h2, h3, hpk]

lemma rowMatches_mkNew (bone : Bone) (kn bn : String) (pv : SrcSnap)
    (now nxt : Nat) (v : RelVal) (key : DBKey) (hpk : pv.key = key) :
    rowMatches (mkNewRow bone kn bn pv now nxt v) kn bone.kind bn key = true := by
  unfold rowMatches mkNewRow
  simp [hpk]

lemma recon_cons_eq (bone : Bone) (kn bn : String) (key : DBKey)
    (pv : SrcSnap) (now : Nat) (r : Row) (t : List Row) (vs : List RelVal) :
    recon bone kn bn key pv now (r :: t) vs
      = (if rowMatches r kn bone.kind bn key then
          match r.dest with
          | none => recon bone kn bn key pv now t vs
          | some d =>
            match vs.find? (fun x => destKeyOf x == d.key) with
            | none => recon bone kn bn key pv now t vs
            | some data =>
              (updateRow bone pv now r data
                  :: (recon bone kn bn key pv now t (vs.erase data)).1,
                (recon bone kn bn key pv now t (vs.erase data)).2)
        else (r :: (recon bone kn bn key pv now t vs).1,
          (recon bone kn bn key pv now t vs).2)) := rfl

lemma recon_cons_nomatch (bone : Bone) (kn bn : String) (key : DBKey)
    (pv : SrcSnap) (now : Nat) (r : Row) (t : List Row) (vs : List RelVal)
    (hm : rowMatches r kn bone.kind bn key = false) :
    recon bone kn bn key pv now (r :: t) vs
      = (r :: (recon bone kn bn key pv now t vs).1,
          (recon bone kn bn key pv now t vs).2) := by
  rw [recon_cons_eq, hm]
  simp only [Bool.false_eq_true, if_false]

lemma recon_cons_corrupt (bone : Bone) (kn bn : String) (key : DBKey)
    (pv : SrcSnap) (now : Nat) (r : Row) (t : List Row) (vs : List RelVal)
    (hm : rowMatches r kn bone.kind bn key = true) (hd : r.dest = none) :
    recon bone kn bn key pv now (r :: t) vs
      = recon bone kn bn key pv now t vs := by
  rw [recon_cons_eq, hm]
  simp only [if_pos]
  rw [hd]

lemma recon_cons_gone (bone : Bone) (kn bn : String) (key : DBKey)
    (pv : SrcSnap) (now : Nat) (r : Row) (t : List Row) (vs : List RelVal)
    (d : SerEnt) (hm : rowMatches r kn bone.kind bn key = true)
    (hd : r.dest = some d)
    (hf : vs.find? (fun x => destKeyOf x == d.key) = none) :
    recon bone kn bn key pv now (r :: t) vs
      = recon bone kn bn key pv now t vs := by
  rw [recon_cons_eq, hm]
  simp only [if_pos]
  rw [hd]
  simp only []
  rw [hf]

lemma recon_cons_upd (bone : Bone) (kn bn : String) (key : DBKey)
    (pv : SrcSnap) (now : Nat) (r : Row) (t : List Row) (vs : List RelVal)
    (d : SerEnt) (data : RelVal)
    (hm : rowMatches r kn bone.kind bn key = true) (hd : r.dest = some d)
    (hf : vs.find? (fun x => destKeyOf x == d.key) = some data) :
    recon bone kn bn key pv now (r :: t) vs
      = (updateRow bone pv now r data
            :: (recon bone kn bn key pv now t (vs.erase data)).1,
          (recon bone kn bn key pv now t (vs.erase data)).2) := by
  rw [recon_cons_eq, hm]
  simp only [if_pos]
  rw [hd]
  simp only []
  rw [hf]

lemma recon_append (bone : Bone) (kn bn : String) (key : DBKey)
    (pv : SrcSnap) (now : Nat) :
    ∀ (A B : List Row) (V : List RelVal),
      recon bone kn bn key pv now (A ++ B) V =
        ((recon bone kn bn key pv now A V).1
            ++ (recon bone kn bn key pv now B
                (recon bone kn bn key pv now A V).2).1,
          (recon bone kn bn key pv now B
            (recon bone kn bn key pv now A V).2).2) := by
  intro A
  induction A with
  | nil => intro B V; rfl
  | cons r t ih =>
    intro B V
    rw [List.cons_append]
    cases hm : rowMatches r kn bone.kind bn key with
    | false =>
      rw [recon_cons_nomatch bone kn bn key pv now r (t ++ B) V hm]
      rw [recon_cons_nomatch bone kn bn key pv now r t V hm]
      rw [ih B V]
      simp [List.cons_append]
    | true =>
      cases hd : r.dest with
      | none =>
        rw [recon_cons_corrupt bone kn bn key pv now r (t ++ B) V hm hd]
        rw [recon_cons_corrupt bone kn bn key pv now r t V hm hd]
        exact ih B V
      | some d =>
        cases hf : V.find? (fun x => destKeyOf x == d.key) with
        | none =>
          rw [recon_cons_gone bone kn bn key pv now r (t ++ B) V d hm hd hf]
          rw [recon_cons_gone bone kn bn key pv now r t V d hm hd hf]
          exact ih B V
        | some data =>
          rw [recon_cons_upd bone kn bn key pv now r (t ++ B) V d data hm hd hf]
          rw [recon_cons_upd bone kn bn key pv now r t V d data hm hd hf]
          rw [ih B (V.erase data)]
          simp [List.cons_append]

lemma recon_fix (bone : Bone) (kn bn : String) (key : DBKey)
    (pv : SrcSnap) (now : Nat) (hpk : pv.key = key) :
    ∀ (R : List Row) (V : List RelVal),
      recon bone kn bn key pv now (recon bone kn bn key pv now R V).1 V
        = recon bone kn bn key pv now R V := by
  intro R
  induction R with
  | nil => intro V; rfl
  | cons r t ih =>
    intro V
    cases hm : rowMatches r kn bone.kind bn key with
    | false =>
      rw [recon_cons_nomatch bone kn bn key pv now r t V hm]
      simp only []
      rw [recon_cons_nomatch bone kn bn key pv now r
        (recon bone kn bn key pv now t V).1 V hm]
      rw [ih V]
    | true =>
      cases hd : r.dest with
      | none =>
        rw [recon_cons_corrupt bone kn bn key pv now r t V hm hd]
        exact ih V
      | some d =>
        cases hf : V.find? (fun x => destKeyOf x == d.key) with
        | none =>
          rw [recon_cons_gone bone kn bn key pv now r t V d hm hd hf]
          exact ih V
        | some data =>
          have heq : destKeyOf data = d.key := by
            have h := List.find?_some hf
            simpa using h
          have hf2 : V.find? (fun x => destKeyOf x
              == (refSkelSerialize bone.refKeys data.dest).key) = some data := by
            rw [show (refSkelSerialize bone.refKeys data.dest).key = d.key from heq]
            exact hf
          rw [recon_cons_upd bone kn bn key pv now r t V d data hm hd hf]
          simp only []
          rw [recon_cons_upd bone kn bn key pv now (updateRow bone pv now r data)
            (recon bone kn bn key pv now t (V.erase data)).1 V
            (refSkelSerialize bone.refKeys data.dest) data
            (rowMatches_updateRow bone pv now r data hm hpk) rfl hf2]
          rw [updateRow_idem bone pv now r data]
          rw [ih (V.erase data)]

lemma recon_new (bone : Bone) (kn bn : String) (key : DBKey)
    (pv : SrcSnap) (now : Nat) (hpk : pv.key = key) :
    ∀ (L : List RelVal) (nxt : Nat),
      recon bone kn bn key pv now (newRowsFrom bone kn bn pv now nxt L) L
        = (newRowsFrom bone kn bn pv now nxt L, []) := by
  intro L
  induction L with
  | nil => intro nxt; rfl
  | cons v vs ih =>
    intro nxt
    rw [show newRowsFrom bone kn bn pv now nxt (v :: vs)
      = mkNewRow bone kn bn pv now nxt v
          :: newRowsFrom bone kn bn pv now (nxt + 1) vs from rfl]
    have hfind : (v :: vs).find? (fun x => destKeyOf x
        == (refSkelSerialize bone.refKeys v.dest).key) = some v := by
      apply List.find?_cons_of_pos
      rw [show (refSkelSerialize bone.refKeys v.dest).key = destKeyOf v from rfl]
      simp
    rw [recon_cons_upd bone kn bn key pv now (mkNewRow bone kn bn pv now nxt v)
      (newRowsFrom bone kn bn pv now (nxt + 1) vs) (v :: vs)
      (refSkelSerialize bone.refKeys v.dest) v
      (rowMatches_mkNew bone kn bn pv now nxt v key hpk) rfl hfind]
    rw [List.erase_cons_head]
    rw [ih (nxt + 1)]
    rw [updateRow_mkNew bone kn bn pv now nxt v]

/-- C6: the post-save relation-index reconciliation is idempotent: with
the handler's `key` argument naming the source entity itself, running
`postSavedHandler` twice against the same bone value, source snapshot and
clock produces the identical index state (same rows, same contents, same
key counter). -/
theorem postSavedHandler_idempotent (bone : Bone) (kindName boneName : String)
    (key : DBKey) (bv : BoneVal) (srcEntity : SrcSnap) (now : Nat)
    (st : IndexState) (hkey : srcEntity.key = key) :
    postSavedHandler bone kindName boneName key bv srcEntity now
        (postSavedHandler bone kindName boneName key bv srcEntity now st)
      = postSavedHandler bone kindName boneName key bv srcEntity now st := by
  have hpk : (parentValuesOf bone srcEntity).key = key := hkey
  unfold postSavedHandler
  dsimp only
  rw [recon_append]
  rw [recon_fix bone kindName boneName key (parentValuesOf bone srcEntity) now
    hpk st.rows (bvValues bv)]
  rw [recon_new bone kindName boneName key (parentValuesOf bone srcEntity) now
    hpk ((recon bone kindName boneName key (parentValuesOf bone srcEntity) now
      st.rows (bvValues bv)).2) st.next]
  simp [newRowsFrom]

def c6Bone : Bone :=
  { kind := "user", refKeys := ["key", "name"], parentKeys := ["key", "name"],
    multiple := true, usingKeys := none, updateLevel := 0,
    consistency := .Ignore, required := false }

def c6Src : SrcSnap :=
  ⟨⟨"page", "p1"⟩, [("key", Val.key ⟨"page", "p1"⟩), ("name", Val.str "Home")]⟩

def c6BV : BoneVal :=
  .list [⟨[("key", Val.key ⟨"user", "u1"⟩), ("name", Val.str "Bob")], none⟩]

def c6St : IndexState :=
  ⟨[⟨0, "page", "user", "b", ⟨⟨"page", "p1"⟩, []⟩,
      some ⟨some ⟨"user", "u9"⟩, [("name", Val.str "Old")]⟩, none, 0, 0, 1, []⟩,
    ⟨1, "page", "user", "other", ⟨⟨"page", "p2"⟩, []⟩, none, none, 0, 0, 1, []⟩],
   2⟩

theorem postSavedHandler_idempotent_witness :
    c6Src.key = (⟨"page", "p1"⟩ : DBKey)
    ∧ postSavedHandler c6Bone "page" "b" ⟨"page", "p1"⟩ c6BV c6Src 7
        (postSavedHandler c6Bone "page" "b" ⟨"page", "p1"⟩ c6BV c6Src 7 c6St)
      = postSavedHandler c6Bone "page" "b" ⟨"page", "p1"⟩ c6BV c6Src 7 c6St :=
  ⟨rfl, postSavedHandler_idempotent c6Bone "page" "b" ⟨"page", "p1"⟩ c6BV c6Src 7
    c6St rfl⟩

/-- C7: under the invariant that every index row's source snapshot stores
the source entity's identity under its `key` property (spec-modelled: the
snapshot is produced by the external entity codec), `postDeletedHandler`
removes exactly the rows matching the quadruple (source kind, destination
kind, source property, source entity key): every matching row is removed
and every other row is kept. -/
theorem postDeletedHandler_exact_removal :
    ∀ (bone : Bone) (kindName boneName : String) (key : DBKey)
      (st : IndexState),
      (∀ r ∈ st.rows, cget r.src.props "key" = some (Val.key r.src.key)) →
      (postDeletedHandler bone kindName boneName key st).rows =
        st.rows.filter (fun r =>
          !(r.src_kind == kindName && r.dest_kind == bone.kind
            && r.src_prop == boneName && r.src.key == key))
      ∧ ∀ r ∈ st.rows,
          (r.src_kind = kindName ∧ r.dest_kind = bone.kind
            ∧ r.src_prop = boneName ∧ r.src.key = key →
            r ∉ (postDeletedHandler bone kindName boneName key st).rows)
          ∧ (¬(r.src_kind = kindName ∧ r.dest_kind = bone.kind
              ∧ r.src_prop = boneName ∧ r.src.key = key) →
            r ∈ (postDeletedHandler bone kindName boneName key st).rows) := by
  intro bone kn bn key st hinv
  have hfe : (postDeletedHandler bone kn bn key st).rows =
      st.rows.filter (fun r =>
        !(r.src_kind == kn && r.dest_kind == bone.kind
          && r.src_prop == bn && r.src.key == key)) := by
    unfold postDeletedHandler
    dsimp only
    apply List.filter_congr
    intro r hr
    rw [hinv r hr]
    have hopt : (some (Val.key r.src.key) == some (Val.key key))
        = (r.src.key == key) := by
      by_cases hab : r.src.key = key
      · rw [hab]
        simp
      · simp [hab]
    rw [hopt]
  refine ⟨hfe, ?_⟩
  intro r hr
  constructor
  · intro hmt hcontra
    rw [hfe] at hcontra
    have hpred := (List.mem_filter.mp hcontra).2
    simp [hmt.1, hmt.2.1, hmt.2.2.1, hmt.2.2.2] at hpred
  · intro hnm
    rw [hfe]
    apply List.mem_filter.mpr
    refine ⟨hr, ?_⟩
    cases hb : (r.src_kind == kn && r.dest_kind == bone.kind
        && r.src_prop == bn && r.src.key == key) with
    | false => rfl
    | true =>
      exfalso
      apply hnm
      simp only [Bool.and_eq_true, beq_iff_eq] at hb
      exact ⟨hb.1.1.1, hb.1.1.2, hb.1.2, hb.2⟩

def c7St : IndexState :=
  ⟨[⟨0, "page", "user", "b",
      ⟨⟨"page", "p1"⟩, [("key", Val.key ⟨"page", "p1"⟩)]⟩,
      some ⟨some ⟨"user", "u1"⟩, []⟩, none, 0, 0, 1, []⟩,
    ⟨1, "page", "user", "b",
      ⟨⟨"page", "p2"⟩, [("key", Val.key ⟨"page", "p2"⟩)]⟩,
      some ⟨some ⟨"user", "u1"⟩, []⟩, none, 0, 0, 1, []⟩],
   2⟩

theorem postDeletedHandler_exact_removal_witness :
    (∀ r ∈ c7St.rows, cget r.src.props "key" = some (Val.key r.src.key))
    ∧ (postDeletedHandler c6Bone "page" "b" ⟨"page", "p1"⟩ c7St).rows =
        c7St.rows.filter (fun r =>
          !(r.src_kind == "page" && r.dest_kind == c6Bone.kind
            && r.src_prop == "b" && r.src.key == (⟨"page", "p1"⟩ : DBKey))) := by
  have hinv : ∀ r ∈ c7St.rows, cget r.src.props "key" = some (Val.key r.src.key) := by
    decide
  exact ⟨hinv, (postDeletedHandler_exact_removal c6Bone "page" "b"
    ⟨"page", "p1"⟩ c7St hinv).1⟩
